import Mathlib

/-!
The api-alert-go monitor: health-check prober, failure counter, expiry sweep and schedules

A shallow embedding of the monitoring engine of the repository:

* `main.go`: `checkEndpoint` (probe with retry, `consecutiveFailures`) and the
  grouping step of `startHealthMonitoring`;
* `handlers/monitor.go`: `checkEndpoint`, `updateEndpointStatus`;
* `handlers/expiry.go`: `CheckExpiredEndpoints`, `removeEndpointsFromSchedules`;
* `handlers/scheduler.go`: `CreateSchedule`, `GetSchedule`, `UpdateSchedule`,
  `DeleteSchedule`, `startSchedule`, `stopSchedule`;
* `database/endpoints.go`: `UpdateEndpointStatus`.

Package-level variables become fields of an explicit state; the network, the
database and the clock are inputs of the functions that use them. A Go panic is
an explicit outcome.
-/

namespace ApiAlert

/-! ## Integers, time, maps -/

/-- Two's-complement wrap-around of a 64-bit Go `int` / `int64` result. -/
def wrapInt64 (x : Int) : Int :=
  (x + 9223372036854775808) % 18446744073709551616 - 9223372036854775808

/-- A `time.Time` instant, in nanoseconds counted from Go's zero time. -/
structure Time where
  ns : Int
deriving DecidableEq, Repr

/-- The Go method `Time.IsZero`: the instant is the zero time. -/
def Time.IsZero (t : Time) : Bool := decide (t.ns = 0)

/-- The Go method `Time.Before`: strictly earlier. -/
def Time.Before (t u : Time) : Bool := decide (t.ns < u.ns)

/-- Reading a Go map with integer keys: the value stored under the key, if any. -/
def mapGet {V : Type} : List (Int × V) → Int → Option V
  | [], _ => none
  | (k, v) :: t, x => if k = x then some v else mapGet t x

/-- Assignment `m[x] = v` on a Go map with integer keys. -/
def mapSet {V : Type} : List (Int × V) → Int → V → List (Int × V)
  | [], x, v => [(x, v)]
  | (k, w) :: t, x, v => if k = x then (k, v) :: t else (k, w) :: mapSet t x v

/-- The Go builtin `delete(m, x)` on a map with integer keys. -/
def mapDelete {V : Type} : List (Int × V) → Int → List (Int × V)
  | [], _ => []
  | (k, w) :: t, x => if k = x then mapDelete t x else (k, w) :: mapDelete t x

/-- Reading an `int`-valued Go map: a missing key reads as the zero value. -/
def counterGet (m : List (Int × Int)) (x : Int) : Int := (mapGet m x).getD 0

/-! ## Data model (`models/endpoint.go`, `handlers/scheduler.go`, `handlers/monitor.go`) -/

/-- The struct `models.Endpoint`. -/
structure Endpoint where
  ID : Int
  URL : String
  Interval : Int
  LastChecked : Time
  Status : String
  ExpiresAt : Time
deriving DecidableEq, Repr

/-- The struct `handlers.Schedule`. -/
structure Schedule where
  ID : Int
  Name : String
  Interval : Int
  CreatedAt : Time
  Endpoints : List Int
deriving DecidableEq, Repr

/-- The struct `handlers.HealthCheck`. -/
structure HealthCheck where
  ID : Int
  EndpointID : Int
  Status : Int
  Response : String
  CheckedAt : Time
deriving DecidableEq, Repr

/-- What one `client.Get` call gives: a transport error, or a response with its
status code and its body (`none` when reading the body fails). -/
inductive GetResult where
  | transportError (msg : String)
  | response (StatusCode : Int) (body : Option String)
deriving DecidableEq, Repr

/-- The status code of a completed response. -/
def GetResult.code? : GetResult → Option Int
  | .transportError _ => none
  | .response c _ => some c

/-- The call failed at transport level. -/
def GetResult.isError : GetResult → Bool
  | .transportError _ => true
  | .response _ _ => false

/-- Lines written with `log.Printf` by the probe of `main.go`. -/
inductive LogEvent where
  | checking (url : String)
  | retry (attempt : Nat) (url : String)
  | failedStatusUpdate
  | checkFailed (url : String)
  | warning (url : String) (code : Int)
  | checkSuccessful (url : String) (code : Int)
deriving DecidableEq, Repr

/-- The line is the "WARNING: ... non-2xx status code ..." alert. -/
def LogEvent.isWarning : LogEvent → Bool
  | .warning _ _ => true
  | _ => false

/-! ## `database.UpdateEndpointStatus` (`database/endpoints.go`) -/

namespace Database

/-- Outcome of `UpdateEndpointStatus`: the returned error, the number of update
attempts made, the number of one-second sleeps and of retry log lines. -/
structure UpdateOutcome where
  err : Option String
  attempts : Nat
  sleeps : Nat
  retryLogs : Nat
deriving DecidableEq, Repr

/-- The loop `for i := 0; i < maxRetries; i++` of `UpdateEndpointStatus`; `db i` is
the error of the update issued at iteration `i` (`none` for `nil`), the first
argument is `maxRetries - i`. -/
def updateLoop (maxRetries : Nat) (db : Nat → Option String) :
    Nat → Nat → UpdateOutcome → UpdateOutcome
  | 0, _, acc => { acc with err := none }
  | fuel + 1, i, acc =>
    match db i with
    | none => { acc with err := none, attempts := acc.attempts + 1 }
    | some e =>
      if i < maxRetries - 1 then
        updateLoop maxRetries db fuel (i + 1)
          { acc with attempts := acc.attempts + 1, sleeps := acc.sleeps + 1,
                     retryLogs := acc.retryLogs + 1 }
      else
        { acc with err := some e, attempts := acc.attempts + 1 }

/-- The function `database.UpdateEndpointStatus`, over the results `db` of the
successive underlying updates. -/
def UpdateEndpointStatus (db : Nat → Option String) : UpdateOutcome :=
  updateLoop 3 db 3 0 ⟨none, 0, 0, 0⟩

end Database

/-! ## The probe of `main.go` -/

namespace Main

/-- Everything `checkEndpoint` of `main.go` reads and writes: the endpoint behind
the pointer, the package variable `consecutiveFailures`, the number of
`client.Get` calls and two-second sleeps, the log, and the statuses handed to
`database.UpdateEndpointStatus`. -/
structure Probe where
  endpoint : Endpoint
  consecutiveFailures : List (Int × Int)
  attempts : Nat
  sleeps : Nat
  logs : List LogEvent
  statusUpdates : List (Int × String)
deriving DecidableEq, Repr

/-- The call `database.UpdateEndpointStatus(endpoint.ID, status)` with its error
branch, as written twice in `checkEndpoint`. -/
def recordStatus (db : Nat → Option String) (status : String) (p : Probe) : Probe :=
  let p1 := { p with statusUpdates := p.statusUpdates ++ [(p.endpoint.ID, status)] }
  match (Database.UpdateEndpointStatus db).err with
  | some _ => { p1 with logs := p1.logs ++ [LogEvent.failedStatusUpdate] }
  | none => p1

/-- The retry loop of `checkEndpoint` (`main.go`); `get i` is the result of the
`client.Get` of iteration `i`, the first argument is `maxRetries - i`. -/
def checkLoop (maxRetries : Nat) (get : Nat → GetResult) (db : Nat → Option String)
    (now : Time) : Nat → Nat → Probe → Probe
  | 0, _, p => p
  | fuel + 1, i, p =>
    match get i with
    | .transportError _ =>
      if i < maxRetries - 1 then
        checkLoop maxRetries get db now fuel (i + 1)
          { p with attempts := p.attempts + 1, sleeps := p.sleeps + 1,
                   logs := p.logs ++ [LogEvent.retry (i + 1) p.endpoint.URL] }
      else
        let p1 := { p with attempts := p.attempts + 1,
                           endpoint := { p.endpoint with Status := "error", LastChecked := now } }
        let p2 := recordStatus db "error" p1
        { p2 with logs := p2.logs ++ [LogEvent.checkFailed p.endpoint.URL] }
    | .response code _ =>
      let p1 := { p with attempts := p.attempts + 1 }
      let p2 :=
        if code < 200 ∨ code ≥ 300 then
          let cf := mapSet p1.consecutiveFailures p1.endpoint.ID
            (wrapInt64 (counterGet p1.consecutiveFailures p1.endpoint.ID + 1))
          if counterGet cf p1.endpoint.ID ≥ 3 then
            { p1 with consecutiveFailures := cf,
                      logs := p1.logs ++ [LogEvent.warning p1.endpoint.URL code] }
          else
            { p1 with consecutiveFailures := cf }
        else
          { p1 with consecutiveFailures := mapSet p1.consecutiveFailures p1.endpoint.ID 0 }
      let p3 := { p2 with endpoint := { p2.endpoint with Status := "ok", LastChecked := now } }
      let p4 := recordStatus db "ok" p3
      { p4 with logs := p4.logs ++ [LogEvent.checkSuccessful p.endpoint.URL code] }

/-- The function `checkEndpoint` of `main.go`. -/
def checkEndpoint (get : Nat → GetResult) (db : Nat → Option String) (now : Time)
    (consecutiveFailures : List (Int × Int)) (endpoint : Endpoint) : Probe :=
  checkLoop 3 get db now 3 0
    ⟨endpoint, consecutiveFailures, 0, 0, [LogEvent.checking endpoint.URL], []⟩

end Main

/-! ## The grouping step of `startHealthMonitoring` (`main.go`) -/

/-- The struct `database.Endpoint` (with the fields of the embedded `gorm.Model`). -/
structure DbEndpoint where
  ID : Nat
  CreatedAt : Time
  UpdatedAt : Time
  DeletedAt : Option Time
  UserID : Nat
  URL : String
  Interval : Int
  LastChecked : Time
  Status : String
  ExpiresAt : Time
deriving DecidableEq, Repr

/-- The struct `database.Schedule`. -/
structure DbSchedule where
  ID : Nat
  Name : String
  Interval : Int
  CreatedAt : Time
  Endpoints : List Int
deriving DecidableEq, Repr

/-- The duration `time.Duration(interval) * time.Second`, an `int64` count of
nanoseconds. -/
def tickerPeriod (interval : Int) : Int := wrapInt64 (interval * 1000000000)

namespace Main

/-- The loop "Group endpoints by interval" of `startHealthMonitoring`: the map
`intervalGroups` after the loop. -/
def groupByInterval (dbEndpoints : List DbEndpoint) : List (Int × List DbEndpoint) :=
  dbEndpoints.foldl
    (fun intervalGroups endpoint =>
      mapSet intervalGroups endpoint.Interval
        ((mapGet intervalGroups endpoint.Interval).getD [] ++ [endpoint]))
    []

/-- A ticker created by `startHealthMonitoring`, with the schedule its goroutine
monitors. -/
structure GroupTicker where
  period : Int
  schedule : DbSchedule
deriving DecidableEq, Repr

/-- The map `tickers` (interval to ticker, a ticker being its position in
`created`) and every ticker created so far. -/
structure Monitoring where
  tickers : List (Int × Nat)
  created : List GroupTicker
  failedUpserts : List Int
deriving DecidableEq, Repr

/-- The loop "Create schedules for each interval group" of `startHealthMonitoring`
over the entries of `intervalGroups` in the order the map iteration yields them.
`firstOrCreate` is the database upsert (`none` when it fails). The result is
`none` when `time.NewTicker` panics, which it does on a non-positive duration. -/
def scheduleLoop (firstOrCreate : DbSchedule → Option DbSchedule) (now : Time) :
    List (Int × List DbEndpoint) → Monitoring → Option Monitoring
  | [], m => some m
  | (interval, endpoints) :: rest, m =>
    let schedule : DbSchedule :=
      ⟨0, "Schedule for " ++ toString interval ++ " second interval", interval, now,
        endpoints.map (fun endpoint => wrapInt64 (Int.ofNat endpoint.ID))⟩
    match firstOrCreate schedule with
    | none => scheduleLoop firstOrCreate now rest { m with failedUpserts := m.failedUpserts ++ [interval] }
    | some stored =>
      if tickerPeriod interval ≤ 0 then none
      else
        scheduleLoop firstOrCreate now rest
          { m with tickers := mapSet m.tickers interval m.created.length,
                   created := m.created ++ [⟨tickerPeriod interval, stored⟩] }

end Main

/-! ## Package `handlers`: state -/

namespace Handlers

/-- A `*time.Ticker` made by `startSchedule`, with the schedule value its goroutine
captured. -/
structure Ticker where
  period : Int
  schedule : Schedule
  stopped : Bool
deriving DecidableEq, Repr

/-- The package variables of `handlers`: `endpoints` (the registry),
`healthChecks`, `schedules`, `runningSchedules` (schedule id to ticker, a ticker
being its position in `tickers`), and every ticker created so far. -/
structure State where
  endpoints : List Endpoint
  healthChecks : List HealthCheck
  schedules : List Schedule
  runningSchedules : List (Int × Nat)
  tickers : List Ticker
deriving DecidableEq, Repr

/-- The errors of `handlers/errors.go`. -/
inductive Err where
  | ErrEndpointNotFound
  | ErrScheduleNotFound
deriving DecidableEq, Repr

/-- How a call ends: a value with a `nil` error, an error, or a panic. -/
inductive Outcome (α : Type) where
  | ok (a : α)
  | error (e : Err)
  | panicked
deriving DecidableEq, Repr

/-! ## `handlers/monitor.go` -/

/-- Index of the first registry entry with the given ID. -/
def findEndpointIdx (id : Int) : List Endpoint → Option Nat
  | [] => none
  | e :: t => if e.ID = id then some 0 else (findEndpointIdx id t).map (· + 1)

/-- The function `updateEndpointStatus`. -/
def updateEndpointStatus (s : State) (now : Time) (endpoint : Endpoint) (status : String)
    (httpStatus : Int) (response : String) : State :=
  let endpoints :=
    match findEndpointIdx endpoint.ID s.endpoints with
    | some i => s.endpoints.modify (fun e => { e with Status := status, LastChecked := now }) i
    | none => s.endpoints
  let healthCheck : HealthCheck :=
    ⟨Int.ofNat s.healthChecks.length + 1, endpoint.ID, httpStatus, response, now⟩
  { s with endpoints := endpoints, healthChecks := s.healthChecks ++ [healthCheck] }

/-- What `checkEndpoint` of `handlers/monitor.go` did: the number of `client.Get`
calls and the status it passed to `updateEndpointStatus`. -/
structure Probe where
  attempts : Nat
  status : String
deriving DecidableEq, Repr

/-- The function `checkEndpoint` of `handlers/monitor.go`; `get i` is the result of
the `i`-th `client.Get` call, should it be made. -/
def checkEndpoint (s : State) (get : Nat → GetResult) (now : Time) (endpoint : Endpoint) :
    State × Probe :=
  match get 0 with
  | .transportError msg => (updateEndpointStatus s now endpoint "error" 0 msg, ⟨1, "error"⟩)
  | .response code none =>
    (updateEndpointStatus s now endpoint "error" code "Failed to read response body",
      ⟨1, "error"⟩)
  | .response code (some body) => (updateEndpointStatus s now endpoint "ok" code body, ⟨1, "ok"⟩)

/-! ## `handlers/scheduler.go` -/

/-- Stop the ticker at position `h`. -/
def stopTicker : List Ticker → Nat → List Ticker
  | [], _ => []
  | t :: ts, 0 => { t with stopped := true } :: ts
  | t :: ts, h + 1 => t :: stopTicker ts h

/-- The function `startSchedule`: `none` when `time.NewTicker` panics (non-positive
duration), else the state with the new ticker stored under the schedule's ID. -/
def startSchedule (s : State) (schedule : Schedule) : Option State :=
  if tickerPeriod schedule.Interval ≤ 0 then none
  else
    some { s with
      tickers := s.tickers ++ [⟨tickerPeriod schedule.Interval, schedule, false⟩],
      runningSchedules := mapSet s.runningSchedules schedule.ID s.tickers.length }

/-- The function `stopSchedule`. -/
def stopSchedule (s : State) (id : Int) : State :=
  match mapGet s.runningSchedules id with
  | some h =>
    { s with tickers := stopTicker s.tickers h,
             runningSchedules := mapDelete s.runningSchedules id }
  | none => s

/-- The loop "Validate endpoint IDs exist" of `CreateSchedule` and `UpdateSchedule`:
`true` when every id is the ID of a registry entry. -/
def validateEndpointIDs (endpoints : List Endpoint) (endpointIDs : List Int) : Bool :=
  endpointIDs.all (fun id => endpoints.any (fun endpoint => decide (endpoint.ID = id)))

/-- Index of the first schedule with the given ID. -/
def findScheduleIdx (id : Int) : List Schedule → Option Nat
  | [] => none
  | sch :: t => if sch.ID = id then some 0 else (findScheduleIdx id t).map (· + 1)

/-- The function `CreateSchedule`; `now` is the reading of `time.Now()`. -/
def CreateSchedule (s : State) (name : String) (interval : Int) (endpointIDs : List Int)
    (now : Time) : State × Outcome Schedule :=
  if validateEndpointIDs s.endpoints endpointIDs then
    let schedule : Schedule :=
      ⟨Int.ofNat s.schedules.length + 1, name, interval, now, endpointIDs⟩
    let s1 := { s with schedules := s.schedules ++ [schedule] }
    match startSchedule s1 schedule with
    | some s2 => (s2, Outcome.ok schedule)
    | none => (s1, Outcome.panicked)
  else (s, Outcome.error Err.ErrEndpointNotFound)

/-- The function `GetSchedules`. -/
def GetSchedules (s : State) : List Schedule := s.schedules

/-- The function `GetSchedule`. -/
def GetSchedule (s : State) (id : Int) : Outcome Schedule :=
  match s.schedules.find? (fun schedule => decide (schedule.ID = id)) with
  | some schedule => Outcome.ok schedule
  | none => Outcome.error Err.ErrScheduleNotFound

/-- The three assignments to `schedules[i]` in `UpdateSchedule`. -/
def assignFields (name : String) (interval : Int) (endpointIDs : List Int)
    (schedule : Schedule) : Schedule :=
  { schedule with Name := name, Interval := interval, Endpoints := endpointIDs }

/-- The function `UpdateSchedule`. -/
def UpdateSchedule (s : State) (id : Int) (name : String) (interval : Int)
    (endpointIDs : List Int) : State × Outcome Schedule :=
  if validateEndpointIDs s.endpoints endpointIDs then
    match findScheduleIdx id s.schedules with
    | some i =>
      let s1 := stopSchedule s id
      let s2 := { s1 with
        schedules := s1.schedules.modify (assignFields name interval endpointIDs) i }
      match s2.schedules[i]? with
      | some updated =>
        match startSchedule s2 updated with
        | some s3 => (s3, Outcome.ok updated)
        | none => (s2, Outcome.panicked)
      | none => (s2, Outcome.panicked)
    | none => (s, Outcome.error Err.ErrScheduleNotFound)
  else (s, Outcome.error Err.ErrEndpointNotFound)

/-- The function `DeleteSchedule`: the new state and the returned error. -/
def DeleteSchedule (s : State) (id : Int) : State × Option Err :=
  match findScheduleIdx id s.schedules with
  | some i =>
    let s1 := stopSchedule s id
    ({ s1 with schedules := s1.schedules.take i ++ s1.schedules.drop (i + 1) }, none)
  | none => (s, some Err.ErrScheduleNotFound)

/-- The body of the goroutine of `startSchedule` at one tick: for each id of the
captured schedule value, the first registry entry with that ID is appended to
`currentEndpoints`; one `checkEndpoint` goroutine is then started per element. The
result is the list of endpoints probed, one entry per probe dispatched. -/
def tickProbes (endpoints : List Endpoint) (schedule : Schedule) : List Endpoint :=
  schedule.Endpoints.filterMap
    (fun endpointID => endpoints.find? (fun endpoint => decide (endpoint.ID = endpointID)))

/-! ## `handlers/expiry.go` -/

/-- The test of `CheckExpiredEndpoints` (and of `CheckAllEndpoints`):
`!endpoint.ExpiresAt.IsZero() && endpoint.ExpiresAt.Before(now)`. -/
def isExpired (now : Time) (endpoint : Endpoint) : Bool :=
  !endpoint.ExpiresAt.IsZero && endpoint.ExpiresAt.Before now

/-- One schedule after the body of the outer loop of `removeEndpointsFromSchedules`. -/
def removeFromSchedule (endpointIDs : List Int) (schedule : Schedule) : Schedule :=
  let isExpired := fun (id : Int) => endpointIDs.any (fun expiredID => decide (id = expiredID))
  let newEndpoints := schedule.Endpoints.filter (fun id => !isExpired id)
  let modified := schedule.Endpoints.any isExpired
  if modified then { schedule with Endpoints := newEndpoints } else schedule

/-- The function `removeEndpointsFromSchedules`. -/
def removeEndpointsFromSchedules (s : State) (endpointIDs : List Int) : State :=
  { s with schedules := s.schedules.map (removeFromSchedule endpointIDs) }

/-- The variables of the loop "Find expired endpoints": `cells` are the cells of
the array under the slice `endpoints` that the `range` walks (as many as the
slice was long when the loop began), `len` is the current `len(endpoints)`,
`deleted` lists the ids handed to `database.DeleteEndpoint` with its success. -/
structure Sweep where
  cells : List Endpoint
  len : Nat
  expiredIDs : List Int
  deleted : List (Int × Bool)
deriving DecidableEq, Repr

/-- The loop `for i, endpoint := range endpoints` of `CheckExpiredEndpoints`. The
range expression is evaluated once, so `i` runs over the original length and
`endpoint` is read from the shared array. `append(endpoints[:i], endpoints[i+1:]...)`
never reallocates: it moves the cells `i+1 .. len-1` one place down and shortens
the slice by one. The slice expression `endpoints[i+1:]` panics when
`i+1 > len(endpoints)`: the result is then `none`. The first argument is the
number of iterations left. -/
def sweepLoop (now : Time) (dbDelete : Int → Bool) : Nat → Nat → Sweep → Option Sweep
  | 0, _, st => some st
  | fuel + 1, i, st =>
    match st.cells[i]? with
    | none => some st
    | some endpoint =>
      if isExpired now endpoint then
        if i + 1 ≤ st.len then
          sweepLoop now dbDelete fuel (i + 1)
            { cells := st.cells.take i ++ (st.cells.drop (i + 1)).take (st.len - (i + 1))
                        ++ st.cells.drop (st.len - 1),
              len := st.len - 1,
              expiredIDs := st.expiredIDs ++ [endpoint.ID],
              deleted := st.deleted ++ [(endpoint.ID, dbDelete endpoint.ID)] }
        else none
      else sweepLoop now dbDelete fuel (i + 1) st

/-- The function `CheckExpiredEndpoints`; `now` is the reading of `time.Now()`,
`dbDelete id` tells whether `database.DeleteEndpoint(id)` succeeds. The result is
`none` when the call panics. -/
def CheckExpiredEndpoints (s : State) (now : Time) (dbDelete : Int → Bool) : Option State :=
  match sweepLoop now dbDelete s.endpoints.length 0 ⟨s.endpoints, s.endpoints.length, [], []⟩ with
  | none => none
  | some st =>
    let s1 := { s with endpoints := st.cells.take st.len }
    if st.expiredIDs.length > 0 then some (removeEndpointsFromSchedules s1 st.expiredIDs)
    else some s1

/-- The calls of `database.DeleteEndpoint` that a sweep which completes made, in
order: the id passed and whether the delete succeeded. -/
def sweepDeletes (s : State) (now : Time) (dbDelete : Int → Bool) : List (Int × Bool) :=
  match sweepLoop now dbDelete s.endpoints.length 0 ⟨s.endpoints, s.endpoints.length, [], []⟩ with
  | some st => st.deleted
  | none => []

end Handlers

/-! ## Vocabulary of the statements -/

/-- The probe's GET completes at attempt `i` with status code `c`: every earlier
attempt fails at transport level and attempt `i` gets a response with code `c`. -/
def CompletesAt (get : Nat → GetResult) (i : Nat) (c : Int) : Prop :=
  (∀ j, j < i → (get j).isError = true) ∧ (get i).code? = some c

/-- An endpoint used in examples: id 1. -/
def demoEndpoint : Endpoint := ⟨1, "http://fails", 5, ⟨0⟩, "unknown", ⟨0⟩⟩

/-- A second endpoint used in examples: id 2. -/
def demoEndpoint2 : Endpoint := ⟨2, "http://ok", 5, ⟨0⟩, "unknown", ⟨0⟩⟩

/-- A server that answers every GET with status 500. -/
def always500 : Nat → GetResult := fun _ => GetResult.response 500 (some "")

/-- A database whose updates all succeed. -/
def dbOk : Nat → Option String := fun _ => none

/-- A state of package `handlers` with two registered endpoints and no schedule. -/
def demoState : Handlers.State := ⟨[demoEndpoint, demoEndpoint2], [], [], [], []⟩

/-- The number of "WARNING" lines in a log. -/
def warnings (logs : List LogEvent) : Nat := (logs.filter LogEvent.isWarning).length

namespace Main

/-- The counter update of `checkEndpoint` on a response with status code `code`. -/
def countResponse (cf : List (Int × Int)) (id code : Int) : List (Int × Int) :=
  if code < 200 ∨ code ≥ 300 then mapSet cf id (wrapInt64 (counterGet cf id + 1))
  else mapSet cf id 0

/-- The inputs of one probe of an endpoint: what the network answers to its GET
attempts, what the database answers to the status update, and the clock. -/
structure Tick where
  get : Nat → GetResult
  db : Nat → Option String
  now : Time

/-- The GET of the tick completes, within the three attempts, with a status code
outside [200,300). -/
def Tick.completesNon2xx (t : Tick) : Prop :=
  ∃ i c, i < 3 ∧ CompletesAt t.get i c ∧ (c < 200 ∨ c ≥ 300)

/-- Consecutive probes of one endpoint by `checkEndpoint`, one per tick, each
starting from the `consecutiveFailures` the previous one left: the final map and
the probes in order. -/
def runProbes (endpoint : Endpoint) : List Tick → List (Int × Int) → List (Int × Int) × List Probe
  | [], cf => (cf, [])
  | t :: ts, cf =>
    let p := checkEndpoint t.get t.db t.now cf endpoint
    let r := runProbes endpoint ts p.consecutiveFailures
    (r.1, p :: r.2)

/-- The number of "WARNING" alerts each probe of a run raised, in order. -/
def alertsPerProbe (probes : List Probe) : List Nat := probes.map (fun p => warnings p.logs)

end Main

/-- A tick at which the server answers 500. -/
def tick500 : Main.Tick := ⟨always500, dbOk, ⟨7⟩⟩

/-- A network on which every GET fails at transport level. -/
def alwaysDown : Nat → GetResult := fun _ => GetResult.transportError "connection refused"

/-- A network on which the first GET fails at transport level and the later ones
answer 200. -/
def failsOnce : Nat → GetResult :=
  fun i => if i = 0 then GetResult.transportError "timeout" else GetResult.response 200 (some "")

/-- An endpoint with id 1 that expired at instant 10. -/
def expiredA : Endpoint := ⟨1, "http://a", 5, ⟨0⟩, "unknown", ⟨10⟩⟩

/-- An endpoint with id 2 that expired at instant 20. -/
def expiredB : Endpoint := ⟨2, "http://b", 5, ⟨0⟩, "unknown", ⟨20⟩⟩

/-- An endpoint with id 3 that never expires (zero `ExpiresAt`). -/
def keptC : Endpoint := ⟨3, "http://c", 5, ⟨0⟩, "unknown", ⟨0⟩⟩

/-- An endpoint with id 4 whose `ExpiresAt` is the instant 100. -/
def expiresAt100 : Endpoint := ⟨4, "http://d", 5, ⟨0⟩, "unknown", ⟨100⟩⟩

/-- A state whose registry is `expiredA, expiredB, keptC`, with one schedule of these
three endpoints. -/
def sweepState : Handlers.State :=
  ⟨[expiredA, expiredB, keptC], [], [⟨1, "every 5s", 5, ⟨0⟩, [1, 2, 3]⟩], [], []⟩

/-- A state whose registry is the single endpoint `expiresAt100`, in one schedule. -/
def singleState : Handlers.State :=
  ⟨[expiresAt100], [], [⟨1, "every 5s", 5, ⟨0⟩, [4]⟩], [], []⟩

/-- A database in which every delete succeeds. -/
def deleteOk : Int → Bool := fun _ => true

namespace Handlers

/-- A call of the schedule API. -/
inductive Op where
  | create (name : String) (interval : Int) (endpointIDs : List Int) (now : Time)
  | update (id : Int) (name : String) (interval : Int) (endpointIDs : List Int)
  | delete (id : Int)
deriving DecidableEq, Repr

/-- The package state after one call; after a call that panicked it is the state at
the panic (the server recovers the panic of a handler and keeps running). -/
def applyOp (s : State) : Op → State
  | .create name interval endpointIDs now => (CreateSchedule s name interval endpointIDs now).1
  | .update id name interval endpointIDs => (UpdateSchedule s id name interval endpointIDs).1
  | .delete id => (DeleteSchedule s id).1

/-- The package state after a sequence of calls. -/
def run (s : State) (ops : List Op) : State := ops.foldl applyOp s

/-- The state at start-up: the loaded registry, no schedule, no ticker. -/
def initState (endpoints : List Endpoint) : State := ⟨endpoints, [], [], [], []⟩

/-- Some id of the list is not the ID of a registry entry. -/
def someUnregistered (endpoints : List Endpoint) (endpointIDs : List Int) : Prop :=
  ∃ id, id ∈ endpointIDs ∧ ∀ endpoint, endpoint ∈ endpoints → endpoint.ID ≠ id

end Handlers

/-- The keys of a Go map with integer keys. -/
def mapKeys {V : Type} (m : List (Int × V)) : List Int := m.map Prod.fst

/-- The intervals, in seconds, of the subscription made by `CreateUser`
(`handlers/users.go`); `CreateEndpoint` and `UpdateEndpoint` store an endpoint's Interval
only when it is one of its owner's allowed intervals. -/
def allowedIntervals : List Int := [5, 60, 300, 900, 1800]

/-- Database endpoints with ids 1, 2, 3 and intervals 5, 60, 5. -/
def loadedEndpoints : List DbEndpoint :=
  [⟨1, ⟨0⟩, ⟨0⟩, none, 1, "http://a", 5, ⟨0⟩, "unknown", ⟨0⟩⟩,
   ⟨2, ⟨0⟩, ⟨0⟩, none, 1, "http://b", 60, ⟨0⟩, "unknown", ⟨0⟩⟩,
   ⟨3, ⟨0⟩, ⟨0⟩, none, 1, "http://c", 5, ⟨0⟩, "unknown", ⟨0⟩⟩]

/-- A database in which every schedule upsert succeeds and stores the schedule given. -/
def upsertOk : DbSchedule → Option DbSchedule := fun sch => some sch

namespace Handlers

/-- Every id in every schedule's member list is the ID of a registry entry. -/
def membersRegistered (s : State) : Prop :=
  ∀ sch, sch ∈ s.schedules → ∀ id, id ∈ sch.Endpoints →
    ∃ endpoint, endpoint ∈ s.endpoints ∧ endpoint.ID = id

/-- Every id in every schedule's member list is the ID of a registry entry that is not
expired at `t`. -/
def membersLive (t : Time) (s : State) : Prop :=
  ∀ sch, sch ∈ s.schedules → ∀ id, id ∈ sch.Endpoints →
    ∃ endpoint, endpoint ∈ s.endpoints ∧ endpoint.ID = id ∧ isExpired t endpoint = false

/-- The ids of the list are the IDs of registry entries. -/
def isRegistered (endpoints : List Endpoint) (id : Int) : Bool :=
  endpoints.any (fun endpoint => decide (endpoint.ID = id))

end Handlers

/-- A database in which every delete fails. -/
def deleteFails : Int → Bool := fun _ => false

/-- A database whose updates fail twice and then succeed. -/
def dbThirdTime : Nat → Option String :=
  fun i => if i < 2 then some "connection reset" else none

/-- A database whose updates all fail, with a numbered error. -/
def dbDown : Nat → Option String :=
  fun i => some ("failure " ++ toString i)

/-- A state with registry `expiredA` and no schedule. -/
def expiredOnlyState : Handlers.State := ⟨[expiredA], [], [], [], []⟩

/-- A state whose registry is `expiredA, expiredB`, without schedule. -/
def twoExpiredState : Handlers.State := ⟨[expiredA, expiredB], [], [], [], []⟩

/-- A state whose registry is `expiredA, keptC, expiredB`, without schedule. -/
def lastExpiredState : Handlers.State := ⟨[expiredA, keptC, expiredB], [], [], [], []⟩

/-- Calls that create two schedules, delete the first and create a third. -/
def reuseOps : List Handlers.Op :=
  [Handlers.Op.create "a" 5 [] ⟨1⟩, Handlers.Op.create "b" 60 [] ⟨2⟩,
   Handlers.Op.delete 1, Handlers.Op.create "c" 300 [] ⟨3⟩]

/-- Calls that create two schedules and delete the first. -/
def reuseOpsStart : List Handlers.Op :=
  [Handlers.Op.create "a" 5 [] ⟨1⟩, Handlers.Op.create "b" 60 [] ⟨2⟩, Handlers.Op.delete 1]

namespace Handlers

/-- The slice `endpoints` as the loop of `CheckExpiredEndpoints` has it: the first
`len` cells. -/
def Sweep.live (st : Sweep) : List Endpoint := st.cells.take st.len

instance (s : State) : Decidable (membersRegistered s) := by
  unfold membersRegistered
  infer_instance

instance (t : Time) (s : State) : Decidable (membersLive t s) := by
  unfold membersLive
  infer_instance

end Handlers

/-- A registry with two entries that carry the ID 1. -/
def twinRegistry : List Endpoint :=
  [⟨1, "http://first", 5, ⟨0⟩, "unknown", ⟨0⟩⟩, ⟨1, "http://second", 5, ⟨0⟩, "unknown", ⟨0⟩⟩]

/-! ## Lemmas on maps and on the probe loop -/

theorem mapGet_mapSet_same {V : Type} (m : List (Int × V)) (k : Int) (v : V) :
    mapGet (mapSet m k v) k = some v := by
  induction m with
  | nil => simp [mapSet, mapGet]
  | cons p t ih =>
    obtain ⟨a, w⟩ := p
    by_cases h : a = k
    · simp [mapSet, mapGet, h]
    · simp [mapSet, mapGet, h, ih]

theorem mapGet_mapSet_other {V : Type} (m : List (Int × V)) (k x : Int) (v : V) (hx : x ≠ k) :
    mapGet (mapSet m k v) x = mapGet m x := by
  induction m with
  | nil => simp [mapSet, mapGet, Ne.symm hx]
  | cons p t ih =>
    obtain ⟨a, w⟩ := p
    by_cases h : a = k
    · subst h
      simp [mapSet, mapGet, Ne.symm hx]
    · by_cases h2 : a = x
      · subst h2
        simp [mapSet, mapGet, h]
      · simp [mapSet, mapGet, h, h2, ih]

theorem counterGet_mapSet_same (m : List (Int × Int)) (k v : Int) :
    counterGet (mapSet m k v) k = v := by
  simp [counterGet, mapGet_mapSet_same]

theorem counterGet_mapSet_other (m : List (Int × Int)) (k x v : Int) (hx : x ≠ k) :
    counterGet (mapSet m k v) x = counterGet m x := by
  simp [counterGet, mapGet_mapSet_other m k x v hx]

theorem isError_iff (r : GetResult) : r.isError = true ↔ ∃ msg, r = GetResult.transportError msg := by
  cases r <;> simp [GetResult.isError]

theorem code?_iff (r : GetResult) (c : Int) :
    r.code? = some c ↔ ∃ b, r = GetResult.response c b := by
  cases r <;> simp [GetResult.code?]

theorem warnings_snoc (l : List LogEvent) (e : LogEvent) :
    warnings (l ++ [e]) = warnings l + (if e.isWarning = true then 1 else 0) := by
  unfold warnings
  by_cases h : e.isWarning = true <;> simp [List.filter_append, h]

namespace Main

theorem recordStatus_endpoint (db : Nat → Option String) (st : String) (p : Probe) :
    (recordStatus db st p).endpoint = p.endpoint := by
  unfold recordStatus; split <;> rfl

theorem recordStatus_cf (db : Nat → Option String) (st : String) (p : Probe) :
    (recordStatus db st p).consecutiveFailures = p.consecutiveFailures := by
  unfold recordStatus; split <;> rfl

theorem recordStatus_attempts (db : Nat → Option String) (st : String) (p : Probe) :
    (recordStatus db st p).attempts = p.attempts := by
  unfold recordStatus; split <;> rfl

theorem recordStatus_warnings (db : Nat → Option String) (st : String) (p : Probe) :
    warnings (recordStatus db st p).logs = warnings p.logs := by
  unfold recordStatus; split <;> simp [warnings_snoc, LogEvent.isWarning]

theorem checkLoop_response (get : Nat → GetResult) (db : Nat → Option String) (now : Time)
    (fuel i : Nat) (p : Probe) (c : Int) (b : Option String) (h : get i = GetResult.response c b) :
    let q := checkLoop 3 get db now (fuel + 1) i p
    q.attempts = p.attempts + 1 ∧ q.endpoint = { p.endpoint with Status := "ok", LastChecked := now } ∧
    q.consecutiveFailures = countResponse p.consecutiveFailures p.endpoint.ID c ∧
    warnings q.logs = warnings p.logs +
      (if (c < 200 ∨ c ≥ 300) ∧ counterGet (countResponse p.consecutiveFailures p.endpoint.ID c) p.endpoint.ID ≥ 3
        then 1 else 0) := by
  intro q
  simp only [q, checkLoop, h]
  by_cases h1 : c < 200 ∨ c ≥ 300
  · by_cases h2 : counterGet (mapSet p.consecutiveFailures p.endpoint.ID
        (wrapInt64 (counterGet p.consecutiveFailures p.endpoint.ID + 1))) p.endpoint.ID ≥ 3
    · simp [recordStatus_endpoint, recordStatus_cf, recordStatus_attempts, recordStatus_warnings,
        countResponse, h1, h2, warnings_snoc, LogEvent.isWarning]
    · simp [recordStatus_endpoint, recordStatus_cf, recordStatus_attempts, recordStatus_warnings,
        countResponse, h1, h2, warnings_snoc, LogEvent.isWarning]
  · simp [recordStatus_endpoint, recordStatus_cf, recordStatus_attempts, recordStatus_warnings,
        countResponse, h1, warnings_snoc, LogEvent.isWarning]

theorem checkLoop_retry (get : Nat → GetResult) (db : Nat → Option String) (now : Time)
    (fuel i : Nat) (p : Probe) (msg : String) (h : get i = GetResult.transportError msg)
    (hi : i < 2) :
    checkLoop 3 get db now (fuel + 1) i p =
      checkLoop 3 get db now fuel (i + 1)
        { p with attempts := p.attempts + 1, sleeps := p.sleeps + 1,
                 logs := p.logs ++ [LogEvent.retry (i + 1) p.endpoint.URL] } := by
  simp [checkLoop, h, hi]

theorem checkLoop_exhausted (get : Nat → GetResult) (db : Nat → Option String) (now : Time)
    (fuel i : Nat) (p : Probe) (msg : String) (h : get i = GetResult.transportError msg)
    (hi : ¬ i < 2) :
    let q := checkLoop 3 get db now (fuel + 1) i p
    q.attempts = p.attempts + 1 ∧
    q.endpoint = { p.endpoint with Status := "error", LastChecked := now } ∧
    q.consecutiveFailures = p.consecutiveFailures ∧ warnings q.logs = warnings p.logs := by
  intro q
  simp [q, checkLoop, h, hi, recordStatus_endpoint, recordStatus_cf, recordStatus_attempts,
    recordStatus_warnings, warnings_snoc, LogEvent.isWarning]

/-- A probe whose GET completes at attempt `i < 3` with code `c`. -/
theorem checkEndpoint_completes (get : Nat → GetResult) (db : Nat → Option String) (now : Time)
    (cf : List (Int × Int)) (e : Endpoint) (i : Nat) (c : Int) (hi : i < 3)
    (h : CompletesAt get i c) :
    let q := checkEndpoint get db now cf e
    q.attempts = i + 1 ∧ q.endpoint = { e with Status := "ok", LastChecked := now } ∧
    q.consecutiveFailures = countResponse cf e.ID c ∧
    warnings q.logs =
      (if (c < 200 ∨ c ≥ 300) ∧ counterGet (countResponse cf e.ID c) e.ID ≥ 3 then 1 else 0) := by
  obtain ⟨herr, hc⟩ := h
  obtain ⟨b, hb⟩ := (code?_iff _ _).1 hc
  intro q
  have e0 : ∀ j, j < i → ∃ msg, get j = GetResult.transportError msg :=
    fun j hj => (isError_iff _).1 (herr j hj)
  interval_cases i
  · have := checkLoop_response get db now 2 0 ⟨e, cf, 0, 0, [LogEvent.checking e.URL], []⟩ c b hb
    simpa [q, checkEndpoint, warnings, LogEvent.isWarning] using this
  · obtain ⟨m0, h0⟩ := e0 0 (by omega)
    have := checkLoop_response get db now 1 1
      ⟨e, cf, 0 + 1, 0 + 1, [LogEvent.checking e.URL] ++ [LogEvent.retry (0 + 1) e.URL], []⟩ c b hb
    simp only [q, checkEndpoint]
    rw [checkLoop_retry get db now 2 0 _ m0 h0 (by omega)]
    simpa [warnings, LogEvent.isWarning] using this
  · obtain ⟨m0, h0⟩ := e0 0 (by omega)
    obtain ⟨m1, h1⟩ := e0 1 (by omega)
    have := checkLoop_response get db now 0 2
      ⟨e, cf, 0 + 1 + 1, 0 + 1 + 1,
        [LogEvent.checking e.URL] ++ [LogEvent.retry (0 + 1) e.URL] ++ [LogEvent.retry (1 + 1) e.URL],
        []⟩ c b hb
    simp only [q, checkEndpoint]
    rw [checkLoop_retry get db now 2 0 _ m0 h0 (by omega),
      checkLoop_retry get db now 1 1 _ m1 h1 (by omega)]
    simpa [warnings, LogEvent.isWarning] using this

/-- A probe whose three attempts all fail at transport level. -/
theorem checkEndpoint_exhausted (get : Nat → GetResult) (db : Nat → Option String) (now : Time)
    (cf : List (Int × Int)) (e : Endpoint) (h : ∀ j, j < 3 → (get j).isError = true) :
    let q := checkEndpoint get db now cf e
    q.attempts = 3 ∧ q.endpoint = { e with Status := "error", LastChecked := now } ∧
    q.consecutiveFailures = cf ∧ warnings q.logs = 0 := by
  intro q
  obtain ⟨m0, h0⟩ := (isError_iff _).1 (h 0 (by omega))
  obtain ⟨m1, h1⟩ := (isError_iff _).1 (h 1 (by omega))
  obtain ⟨m2, h2⟩ := (isError_iff _).1 (h 2 (by omega))
  have := checkLoop_exhausted get db now 0 2
      ⟨e, cf, 0 + 1 + 1, 0 + 1 + 1,
        [LogEvent.checking e.URL] ++ [LogEvent.retry (0 + 1) e.URL] ++ [LogEvent.retry (1 + 1) e.URL],
        []⟩ m2 h2 (by omega)
  simp only [q, checkEndpoint]
  rw [checkLoop_retry get db now 2 0 _ m0 h0 (by omega),
    checkLoop_retry get db now 1 1 _ m1 h1 (by omega)]
  simpa [warnings, LogEvent.isWarning] using this

/-- Every transport sequence either completes within three attempts or fails three times. -/
theorem completes_or_exhausted (get : Nat → GetResult) :
    (∃ i c, i < 3 ∧ CompletesAt get i c) ∨ (∀ j, j < 3 → (get j).isError = true) := by
  by_cases h0 : (get 0).isError = true
  · by_cases h1 : (get 1).isError = true
    · by_cases h2 : (get 2).isError = true
      · right
        intro j hj
        interval_cases j <;> assumption
      · left
        cases hg : get 2 with
        | transportError m => simp [hg, GetResult.isError] at h2
        | response c b =>
          refine ⟨2, c, by omega, ?_, by simp [hg, GetResult.code?]⟩
          intro j hj
          interval_cases j <;> assumption
    · left
      cases hg : get 1 with
      | transportError m => simp [hg, GetResult.isError] at h1
      | response c b =>
        refine ⟨1, c, by omega, ?_, by simp [hg, GetResult.code?]⟩
        intro j hj
        interval_cases j; assumption
  · left
    cases hg : get 0 with
    | transportError m => simp [hg, GetResult.isError] at h0
    | response c b =>
      exact ⟨0, c, by omega, fun j hj => absurd hj (by omega), by simp [hg, GetResult.code?]⟩

end Main

theorem wrapInt64_of_range (x : Int) (h1 : -9223372036854775808 ≤ x)
    (h2 : x ≤ 9223372036854775807) : wrapInt64 x = x := by
  unfold wrapInt64
  omega

namespace Handlers

theorem findEndpointIdx_lt (id : Int) (l : List Endpoint) (k : Nat)
    (h : findEndpointIdx id l = some k) : k < l.length := by
  induction l generalizing k with
  | nil => simp [findEndpointIdx] at h
  | cons e t ih =>
    by_cases he : e.ID = id
    · simp [findEndpointIdx, he] at h
      subst h
      simp
    · simp [findEndpointIdx, he] at h
      obtain ⟨a, ha, rfl⟩ := h
      have := ih a ha
      simp
      omega

theorem updateEndpointStatus_entry (s : State) (now : Time) (endpoint : Endpoint)
    (status : String) (httpStatus : Int) (response : String) (k : Nat)
    (h : findEndpointIdx endpoint.ID s.endpoints = some k) :
    (updateEndpointStatus s now endpoint status httpStatus response).endpoints[k]? =
      (s.endpoints[k]?).map (fun e => { e with Status := status, LastChecked := now }) := by
  simp [updateEndpointStatus, h]

end Handlers


namespace Main

/-- The alerts of a run that starts at a failure count of `m`: probe `k` raises one
alert when its count `m + k + 1` reaches 3. -/
theorem runProbes_streak (endpoint : Endpoint) (ticks : List Tick) :
    ∀ (cf : List (Int × Int)) (m : Nat), counterGet cf endpoint.ID = m →
      (0 : Int) ≤ m → (m : Int) + ticks.length ≤ 9223372036854775807 →
      (∀ t, t ∈ ticks → t.completesNon2xx) →
      counterGet (runProbes endpoint ticks cf).1 endpoint.ID = (m : Int) + ticks.length ∧
      alertsPerProbe (runProbes endpoint ticks cf).2 =
        (List.range ticks.length).map (fun k => if 3 ≤ m + k + 1 then 1 else 0) := by
  induction ticks with
  | nil =>
    intro cf m hm _ _ _
    simp [runProbes, alertsPerProbe, hm]
  | cons t ts ih =>
    intro cf m hm hm0 hbound hticks
    obtain ⟨i, c, hi, hc, hnon⟩ := hticks t (by simp)
    have hp := checkEndpoint_completes t.get t.db t.now cf endpoint i c hi hc
    simp only at hp
    obtain ⟨-, -, hcf, hw⟩ := hp
    simp only [List.length_cons, Nat.cast_add, Nat.cast_one] at hbound
    have hwrap : wrapInt64 ((m : Int) + 1) = (m : Int) + 1 :=
      wrapInt64_of_range _ (by omega) (by omega)
    have hcount : counterGet (countResponse cf endpoint.ID c) endpoint.ID = ((m + 1 : Nat) : Int) := by
      simp [countResponse, hnon, counterGet_mapSet_same, hm, hwrap]
    have hrec := ih (checkEndpoint t.get t.db t.now cf endpoint).consecutiveFailures (m + 1)
      (by rw [hcf]; exact hcount) (by omega) (by push_cast; omega)
      (fun u hu => hticks u (by simp [hu]))
    refine ⟨?_, ?_⟩
    · simp only [runProbes, List.length_cons]
      rw [hrec.1]
      push_cast
      omega
    · have htail := hrec.2
      simp only [alertsPerProbe] at htail ⊢
      simp only [runProbes, List.map_cons, List.length_cons, htail, hw, hcount]
      rw [List.range_succ_eq_map, List.map_cons, List.map_map]
      have hhead : (if (c < 200 ∨ c ≥ 300) ∧ ((m + 1 : Nat) : Int) ≥ 3 then 1 else 0)
          = (if 3 ≤ m + 0 + 1 then 1 else 0) := by
        have hiff : (((m + 1 : Nat) : Int) ≥ 3) ↔ 3 ≤ m + 0 + 1 := by omega
        simp only [hnon, true_and, hiff]
      have htl : List.map (fun k => if 3 ≤ m + 1 + k + 1 then 1 else 0) (List.range ts.length)
          = List.map ((fun k => if 3 ≤ m + k + 1 then 1 else 0) ∘ Nat.succ)
              (List.range ts.length) := by
        apply List.map_congr_left
        intro k _
        simp only [Function.comp]
        have : m + 1 + k + 1 = m + Nat.succ k + 1 := by omega
        rw [this]
      rw [hhead, htl]

/-- The number of probes `k < n` whose count `m + k + 1` has reached 3, for `m = 0`. -/
theorem sum_alerts_from (n m : Nat) (hm : m = 0) :
    ((List.range n).map (fun k => if 3 ≤ m + k + 1 then 1 else 0)).sum = n - 2 := by
  subst hm
  induction n with
  | zero => simp
  | succ n ih =>
    rw [List.range_succ, List.map_append, List.sum_append, ih]
    simp only [List.map_cons, List.map_nil, List.sum_cons, List.sum_nil]
    split_ifs <;> omega

end Main

/-! ## Lemmas on schedules -/

namespace Handlers

/-- What a successful `CreateSchedule` did. -/
theorem CreateSchedule_ok (s s1 : State) (name : String) (interval : Int)
    (endpointIDs : List Int) (now : Time) (sch : Schedule)
    (h : CreateSchedule s name interval endpointIDs now = (s1, Outcome.ok sch)) :
    validateEndpointIDs s.endpoints endpointIDs = true ∧ 0 < tickerPeriod interval ∧
    sch = ⟨Int.ofNat s.schedules.length + 1, name, interval, now, endpointIDs⟩ ∧
    s1 = { s with
      schedules := s.schedules ++ [sch],
      tickers := s.tickers ++ [⟨tickerPeriod interval, sch, false⟩],
      runningSchedules := mapSet s.runningSchedules sch.ID s.tickers.length } := by
  unfold CreateSchedule at h
  by_cases hv : validateEndpointIDs s.endpoints endpointIDs = true
  · by_cases hp : tickerPeriod interval ≤ 0
    · simp [hv, startSchedule, hp] at h
    · simp [hv, startSchedule, hp] at h
      obtain ⟨h1, h2⟩ := h
      subst h2
      subst h1
      exact ⟨hv, by omega, rfl, rfl⟩
  · simp [hv] at h

/-- A call of `CreateSchedule` with registered ids and a positive ticker period succeeds. -/
theorem CreateSchedule_succeeds (s : State) (name : String) (interval : Int)
    (endpointIDs : List Int) (now : Time)
    (hv : validateEndpointIDs s.endpoints endpointIDs = true) (hp : 0 < tickerPeriod interval) :
    ∃ s1, CreateSchedule s name interval endpointIDs now =
      (s1, Outcome.ok ⟨Int.ofNat s.schedules.length + 1, name, interval, now, endpointIDs⟩) := by
  have hp2 : ¬ tickerPeriod interval ≤ 0 := by omega
  simp [CreateSchedule, hv, startSchedule, hp2]

theorem removeFromSchedule_single (id : Int) (name : String) (interval : Int) (now : Time)
    (e : Int) :
    removeFromSchedule [e] ⟨id, name, interval, now, [e]⟩ = ⟨id, name, interval, now, []⟩ := by
  simp [removeFromSchedule]

end Handlers

namespace Handlers

theorem validateEndpointIDs_eq_false_iff (endpoints : List Endpoint) (endpointIDs : List Int) :
    validateEndpointIDs endpoints endpointIDs = false ↔ someUnregistered endpoints endpointIDs := by
  simp [validateEndpointIDs, someUnregistered]

theorem stopSchedule_endpoints (s : State) (id : Int) :
    (stopSchedule s id).endpoints = s.endpoints := by
  unfold stopSchedule
  split <;> rfl

theorem stopSchedule_schedules (s : State) (id : Int) :
    (stopSchedule s id).schedules = s.schedules := by
  unfold stopSchedule
  split <;> rfl

theorem startSchedule_endpoints (s s1 : State) (sch : Schedule) (h : startSchedule s sch = some s1) :
    s1.endpoints = s.endpoints ∧ s1.schedules = s.schedules := by
  unfold startSchedule at h
  split at h
  · simp at h
  · simp at h
    subst h
    exact ⟨rfl, rfl⟩

theorem applyOp_endpoints (s : State) (op : Op) : (applyOp s op).endpoints = s.endpoints := by
  cases op with
  | create name interval ids now =>
    simp only [applyOp, CreateSchedule]
    split
    · split
      · rename_i s2 h
        exact (startSchedule_endpoints _ _ _ h).1
      · rfl
    · rfl
  | update id name interval ids =>
    simp only [applyOp, UpdateSchedule]
    split
    · split
      · split
        · split
          · rename_i s3 h
            rw [(startSchedule_endpoints _ _ _ h).1]
            exact stopSchedule_endpoints s id
          · exact stopSchedule_endpoints s id
        · exact stopSchedule_endpoints s id
      · rfl
    · rfl
  | delete id =>
    simp only [applyOp, DeleteSchedule]
    split
    · exact stopSchedule_endpoints s id
    · rfl

theorem run_endpoints (s : State) (ops : List Op) : (run s ops).endpoints = s.endpoints := by
  induction ops generalizing s with
  | nil => rfl
  | cons op ops ih =>
    simp only [run, List.foldl_cons] at ih ⊢
    rw [ih, applyOp_endpoints]

/-- The schedule list after `CreateSchedule` with registered ids, whether `startSchedule`
returns or panics. -/
theorem CreateSchedule_schedules (s : State) (name : String) (interval : Int)
    (endpointIDs : List Int) (now : Time)
    (hv : validateEndpointIDs s.endpoints endpointIDs = true) :
    (CreateSchedule s name interval endpointIDs now).1.schedules =
      s.schedules ++ [⟨Int.ofNat s.schedules.length + 1, name, interval, now, endpointIDs⟩] := by
  simp only [CreateSchedule, hv, if_true]
  split
  · rename_i s2 h
    exact (startSchedule_endpoints _ _ _ h).2
  · rfl

end Handlers

/-! ## Lemmas on the interval groups -/

theorem mapGet_eq_none_iff {V : Type} (m : List (Int × V)) (k : Int) :
    mapGet m k = none ↔ k ∉ mapKeys m := by
  induction m with
  | nil => simp [mapGet, mapKeys]
  | cons p t ih =>
    obtain ⟨a, w⟩ := p
    by_cases h : a = k
    · simp [mapGet, mapKeys, h]
    · have h2 : ¬ k = a := fun hk => h hk.symm
      simpa [mapGet, mapKeys, h, h2] using ih

theorem mapKeys_mapSet {V : Type} (m : List (Int × V)) (k : Int) (v : V) :
    mapKeys (mapSet m k v) = if k ∈ mapKeys m then mapKeys m else mapKeys m ++ [k] := by
  induction m with
  | nil => simp [mapSet, mapKeys]
  | cons p t ih =>
    obtain ⟨a, w⟩ := p
    by_cases h : a = k
    · simp [mapSet, mapKeys, h]
    · have h2 : ¬ k = a := fun hk => h hk.symm
      simp only [mapKeys] at ih
      simp only [mapSet, mapKeys, h, if_false, List.map_cons, List.mem_cons, h2, false_or, ih]
      split <;> simp

theorem mapGet_of_mem {V : Type} (m : List (Int × V)) (k : Int) (v : V)
    (hnd : (mapKeys m).Nodup) (h : (k, v) ∈ m) : mapGet m k = some v := by
  induction m with
  | nil => simp at h
  | cons p t ih =>
    obtain ⟨a, w⟩ := p
    simp only [mapKeys, List.map_cons, List.nodup_cons] at hnd
    rcases List.mem_cons.1 h with h1 | h1
    · simp only [Prod.mk.injEq] at h1
      obtain ⟨rfl, rfl⟩ := h1
      simp [mapGet]
    · have hk : a ≠ k := by
        intro hak
        apply hnd.1
        subst hak
        exact List.mem_map.2 ⟨(a, v), h1, rfl⟩
      simp only [mapGet, hk, if_false]
      exact ih hnd.2 h1

theorem mem_of_mapGet {V : Type} (m : List (Int × V)) (k : Int) (v : V)
    (h : mapGet m k = some v) : (k, v) ∈ m := by
  induction m with
  | nil => simp [mapGet] at h
  | cons p t ih =>
    obtain ⟨a, w⟩ := p
    by_cases hk : a = k
    · simp only [mapGet, hk, if_true, Option.some.injEq] at h
      subst h
      subst hk
      simp
    · simp only [mapGet, hk, if_false] at h
      exact List.mem_cons_of_mem _ (ih h)

namespace Main

theorem groupByInterval_snoc (l : List DbEndpoint) (e : DbEndpoint) :
    groupByInterval (l ++ [e]) =
      mapSet (groupByInterval l) e.Interval
        ((mapGet (groupByInterval l) e.Interval).getD [] ++ [e]) := by
  simp [groupByInterval, List.foldl_append]

/-- The group stored under an interval is the sublist of the endpoints with that
interval, in their order; no group is stored for an interval no endpoint has. -/
theorem mapGet_groupByInterval (l : List DbEndpoint) (k : Int) :
    mapGet (groupByInterval l) k =
      if l.filter (fun e => decide (e.Interval = k)) = [] then none
      else some (l.filter (fun e => decide (e.Interval = k))) := by
  induction l using List.reverseRecOn with
  | nil => simp [groupByInterval, mapGet]
  | append_singleton l e ih =>
    rw [groupByInterval_snoc]
    by_cases hk : e.Interval = k
    · subst hk
      rw [mapGet_mapSet_same, ih]
      by_cases hnil : l.filter (fun x => decide (x.Interval = e.Interval)) = []
      · simp [List.filter_append, hnil]
      · simp [List.filter_append, hnil]
    · have hk2 : k ≠ e.Interval := fun h => hk h.symm
      rw [mapGet_mapSet_other _ _ _ _ hk2, ih]
      simp [List.filter_append, hk]

theorem mem_mapKeys_groupByInterval (l : List DbEndpoint) (k : Int) :
    k ∈ mapKeys (groupByInterval l) ↔ k ∈ l.map (fun e => e.Interval) := by
  have h := mapGet_eq_none_iff (groupByInterval l) k
  rw [mapGet_groupByInterval] at h
  by_cases hnil : l.filter (fun e => decide (e.Interval = k)) = []
  · simp only [hnil, if_true, true_iff] at h
    constructor
    · intro hk
      exact absurd hk h
    · intro hk
      obtain ⟨e, he, hek⟩ := List.mem_map.1 hk
      have : e ∈ l.filter (fun e => decide (e.Interval = k)) := by
        simp [List.mem_filter, he, hek]
      rw [hnil] at this
      simp at this
  · simp only [hnil, if_false] at h
    have hk : k ∈ mapKeys (groupByInterval l) := by
      by_contra hc
      have := h.2 hc
      simp at this
    refine ⟨fun _ => ?_, fun _ => hk⟩
    obtain ⟨e, he⟩ := List.exists_mem_of_ne_nil _ hnil
    simp only [List.mem_filter, decide_eq_true_eq] at he
    exact List.mem_map.2 ⟨e, he.1, he.2⟩

theorem nodup_mapKeys_groupByInterval (l : List DbEndpoint) :
    (mapKeys (groupByInterval l)).Nodup := by
  induction l using List.reverseRecOn with
  | nil => simp [groupByInterval, mapKeys]
  | append_singleton l e ih =>
    rw [groupByInterval_snoc, mapKeys_mapSet]
    split
    · exact ih
    · rename_i hk
      rw [List.nodup_append]
      refine ⟨ih, by simp, ?_⟩
      intro a ha hb
      simp only [List.mem_singleton] at hb
      subst hb
      exact hk ha

theorem length_groupByInterval (l : List DbEndpoint) :
    (groupByInterval l).length = (l.map (fun e => e.Interval)).toFinset.card := by
  have h1 : (groupByInterval l).length = (mapKeys (groupByInterval l)).length := by
    simp [mapKeys]
  rw [h1, ← List.toFinset_card_of_nodup (nodup_mapKeys_groupByInterval l)]
  congr 1
  ext k
  simp only [List.mem_toFinset]
  exact mem_mapKeys_groupByInterval l k

theorem mem_groupByInterval (l : List DbEndpoint) (k : Int) (g : List DbEndpoint)
    (h : (k, g) ∈ groupByInterval l) : g = l.filter (fun e => decide (e.Interval = k)) := by
  have hget := mapGet_of_mem _ k g (nodup_mapKeys_groupByInterval l) h
  rw [mapGet_groupByInterval] at hget
  split at hget
  · simp at hget
  · simpa using hget.symm

/-- When every upsert succeeds and every period is positive, the loop creates one
ticker per entry and stores it under the entry's key. -/
theorem scheduleLoop_all (firstOrCreate : DbSchedule → Option DbSchedule) (now : Time)
    (hup : ∀ sch, (firstOrCreate sch).isSome = true) (order : List (Int × List DbEndpoint)) :
    ∀ m : Monitoring, (∀ p, p ∈ order → 0 < tickerPeriod p.1) → (mapKeys order).Nodup →
      (∀ k, k ∈ mapKeys m.tickers → k ∉ mapKeys order) →
      ∃ r, scheduleLoop firstOrCreate now order m = some r ∧
        r.created.length = m.created.length + order.length ∧
        r.tickers.length = m.tickers.length + order.length ∧
        r.failedUpserts = m.failedUpserts := by
  induction order with
  | nil =>
    intro m _ _ _
    exact ⟨m, rfl, rfl, rfl, rfl⟩
  | cons p rest ih =>
    intro m hpos hnd hdis
    obtain ⟨interval, endpoints⟩ := p
    simp only [mapKeys, List.map_cons, List.nodup_cons] at hnd
    have hp : ¬ tickerPeriod interval ≤ 0 := by
      have := hpos (interval, endpoints) (by simp)
      simp only at this
      omega
    have hnew : interval ∉ mapKeys m.tickers := by
      intro hk
      exact hdis interval hk (by simp [mapKeys])
    obtain ⟨stored, hstored⟩ := Option.isSome_iff_exists.1
      (hup ⟨0, "Schedule for " ++ toString interval ++ " second interval", interval, now,
        endpoints.map (fun endpoint => wrapInt64 (Int.ofNat endpoint.ID))⟩)
    have hkeys := mapKeys_mapSet m.tickers interval m.created.length
    simp only [hnew, if_false] at hkeys
    obtain ⟨r, hr, hc, ht, hf⟩ := ih
      { m with tickers := mapSet m.tickers interval m.created.length,
               created := m.created ++ [⟨tickerPeriod interval, stored⟩] }
      (fun q hq => hpos q (by simp [hq])) hnd.2
      (by
        intro k hk
        simp only [hkeys, List.mem_append, List.mem_singleton] at hk
        rcases hk with hk | hk
        · intro hmem
          exact hdis k hk (by simp only [mapKeys, List.map_cons, List.mem_cons]; right; exact hmem)
        · subst hk
          exact hnd.1)
    refine ⟨r, ?_, ?_, ?_, hf⟩
    · simp only [scheduleLoop, hstored, hp, if_false]
      exact hr
    · rw [hc]
      simp
      omega
    · rw [ht]
      have hlen : (mapSet m.tickers interval m.created.length).length = m.tickers.length + 1 := by
        have := congrArg List.length hkeys
        simpa [mapKeys] using this
      simp only [hlen, List.length_cons]
      omega

end Main

/-- A positive number of seconds up to 9223372036 gives a positive `int64` duration. -/
theorem tickerPeriod_pos (interval : Int) (h0 : 0 < interval) (h1 : interval ≤ 9223372036) :
    0 < tickerPeriod interval := by
  unfold tickerPeriod wrapInt64
  have hmod : (interval * 1000000000 + 9223372036854775808) % 18446744073709551616
      = interval * 1000000000 + 9223372036854775808 :=
    Int.emod_eq_of_lt (by omega) (by omega)
  rw [hmod]
  omega

/-! ## Lemmas on the status update, on lookups and on ticks -/

namespace Database

theorem UpdateEndpointStatus_first (db : Nat → Option String) (h0 : db 0 = none) :
    UpdateEndpointStatus db = ⟨none, 1, 0, 0⟩ := by
  simp [UpdateEndpointStatus, updateLoop, h0]

theorem UpdateEndpointStatus_second (db : Nat → Option String) (e0 : String)
    (h0 : db 0 = some e0) (h1 : db 1 = none) :
    UpdateEndpointStatus db = ⟨none, 2, 1, 1⟩ := by
  simp [UpdateEndpointStatus, updateLoop, h0, h1]

theorem UpdateEndpointStatus_third (db : Nat → Option String) (e0 e1 : String)
    (h0 : db 0 = some e0) (h1 : db 1 = some e1) (h2 : db 2 = none) :
    UpdateEndpointStatus db = ⟨none, 3, 2, 2⟩ := by
  simp [UpdateEndpointStatus, updateLoop, h0, h1, h2]

theorem UpdateEndpointStatus_failed (db : Nat → Option String) (e0 e1 e2 : String)
    (h0 : db 0 = some e0) (h1 : db 1 = some e1) (h2 : db 2 = some e2) :
    UpdateEndpointStatus db = ⟨some e2, 3, 2, 2⟩ := by
  simp [UpdateEndpointStatus, updateLoop, h0, h1, h2]

end Database

namespace Handlers

theorem findScheduleIdx_eq_none_iff (id : Int) (l : List Schedule) :
    findScheduleIdx id l = none ↔ ∀ sch, sch ∈ l → sch.ID ≠ id := by
  induction l with
  | nil => simp [findScheduleIdx]
  | cons a t ih =>
    by_cases h : a.ID = id
    · simp [findScheduleIdx, h]
    · simp [findScheduleIdx, h, ih]

theorem findScheduleIdx_lt (id : Int) (l : List Schedule) (i : Nat)
    (h : findScheduleIdx id l = some i) : i < l.length := by
  induction l generalizing i with
  | nil => simp [findScheduleIdx] at h
  | cons a t ih =>
    by_cases ha : a.ID = id
    · simp [findScheduleIdx, ha] at h
      subst h
      simp
    · simp [findScheduleIdx, ha] at h
      obtain ⟨k, hk, rfl⟩ := h
      have := ih k hk
      simp
      omega

/-- The schedule at the index `findScheduleIdx` gives has the ID looked for, and no
earlier schedule has it. -/
theorem findScheduleIdx_spec (id : Int) (l : List Schedule) (i : Nat)
    (h : findScheduleIdx id l = some i) :
    (∃ sch, l[i]? = some sch ∧ sch.ID = id) ∧
    ∀ j sch, j < i → l[j]? = some sch → sch.ID ≠ id := by
  induction l generalizing i with
  | nil => simp [findScheduleIdx] at h
  | cons a t ih =>
    by_cases ha : a.ID = id
    · simp [findScheduleIdx, ha] at h
      subst h
      exact ⟨⟨a, by simp, ha⟩, fun j sch hj => absurd hj (by omega)⟩
    · simp [findScheduleIdx, ha] at h
      obtain ⟨k, hk, rfl⟩ := h
      obtain ⟨⟨sch, hs, hid⟩, hbefore⟩ := ih k hk
      refine ⟨⟨sch, by simpa using hs, hid⟩, ?_⟩
      intro j sch2 hj hget
      cases j with
      | zero =>
        simp at hget
        subst hget
        exact ha
      | succ j =>
        simp at hget
        exact hbefore j sch2 (by omega) hget

theorem find?_schedule_eq_none_iff (id : Int) (l : List Schedule) :
    l.find? (fun schedule => decide (schedule.ID = id)) = none ↔
      ∀ sch, sch ∈ l → sch.ID ≠ id := by
  simp [List.find?_eq_none]

/-- The state and outcome of `UpdateSchedule` on registered ids and an existing
schedule. -/
theorem UpdateSchedule_found (s : State) (id : Int) (name : String) (interval : Int)
    (endpointIDs : List Int) (i : Nat)
    (hv : validateEndpointIDs s.endpoints endpointIDs = true)
    (hi : findScheduleIdx id s.schedules = some i) :
    ∃ old, s.schedules[i]? = some old ∧ old.ID = id ∧
      (UpdateSchedule s id name interval endpointIDs).1.schedules =
        s.schedules.modify (assignFields name interval endpointIDs) i ∧
      (tickerPeriod interval ≤ 0 →
        UpdateSchedule s id name interval endpointIDs =
          ({ stopSchedule s id with
              schedules := s.schedules.modify (assignFields name interval endpointIDs) i },
           Outcome.panicked)) ∧
      (0 < tickerPeriod interval →
        (UpdateSchedule s id name interval endpointIDs).2 =
          Outcome.ok (assignFields name interval endpointIDs old)) := by
  obtain ⟨⟨old, hold, hid⟩, -⟩ := findScheduleIdx_spec id s.schedules i hi
  have hget : ((stopSchedule s id).schedules.modify (assignFields name interval endpointIDs) i)[i]?
      = some (assignFields name interval endpointIDs old) := by
    rw [stopSchedule_schedules, List.getElem?_modify_eq, hold]
    rfl
  refine ⟨old, hold, hid, ?_, ?_, ?_⟩
  · simp only [UpdateSchedule, hv, if_true, hi, hget]
    split
    · rename_i s3 h3
      rw [(startSchedule_endpoints _ _ _ h3).2, stopSchedule_schedules]
    · rw [stopSchedule_schedules]
  · intro hp
    simp only [UpdateSchedule, hv, if_true, hi, hget]
    simp [startSchedule, assignFields, hp, stopSchedule_schedules]
  · intro hp
    have hp2 : ¬ tickerPeriod interval ≤ 0 := by omega
    simp only [UpdateSchedule, hv, if_true, hi, hget]
    simp [startSchedule, assignFields, hp2]

theorem removeFromSchedule_eq (endpointIDs : List Int) (schedule : Schedule) :
    removeFromSchedule endpointIDs schedule =
      { schedule with
        Endpoints := schedule.Endpoints.filter (fun id => decide (id ∉ endpointIDs)) } := by
  unfold removeFromSchedule
  have hfilter : schedule.Endpoints.filter
      (fun id => !(endpointIDs.any (fun expiredID => decide (id = expiredID))))
      = schedule.Endpoints.filter (fun id => decide (id ∉ endpointIDs)) := by
    apply List.filter_congr
    intro x _
    have hany : (endpointIDs.any (fun expiredID => decide (x = expiredID)))
        = decide (x ∈ endpointIDs) := by
      rw [Bool.eq_iff_iff]
      simp [List.any_eq_true]
    simp [hany]
  by_cases hm : schedule.Endpoints.any
      (fun id => endpointIDs.any (fun expiredID => decide (id = expiredID))) = true
  · simp only [hm, if_true, hfilter]
  · simp only [hm]
    have hall : ∀ x, x ∈ schedule.Endpoints → x ∉ endpointIDs := by
      intro x hx hmem
      apply hm
      simp only [List.any_eq_true, decide_eq_true_eq]
      exact ⟨x, hx, x, hmem, rfl⟩
    have hself : schedule.Endpoints.filter (fun id => decide (id ∉ endpointIDs))
        = schedule.Endpoints := by
      rw [List.filter_eq_self]
      intro x hx
      simpa using hall x hx
    rw [hself]
    rfl

theorem isRegistered_eq_false_iff (endpoints : List Endpoint) (id : Int) :
    endpoints.find? (fun endpoint => decide (endpoint.ID = id)) = none ↔
      isRegistered endpoints id = false := by
  simp [isRegistered, List.find?_eq_none]

theorem tickProbes_ids (endpoints : List Endpoint) (schedule : Schedule) :
    (tickProbes endpoints schedule).map (fun e => e.ID) =
      schedule.Endpoints.filter (isRegistered endpoints) := by
  unfold tickProbes
  induction schedule.Endpoints with
  | nil => simp
  | cons id rest ih =>
    cases hf : endpoints.find? (fun endpoint => decide (endpoint.ID = id)) with
    | none =>
      have hr := (isRegistered_eq_false_iff endpoints id).1 hf
      simp [List.filterMap_cons, hf, List.filter_cons, hr, ih]
    | some e =>
      have hid : e.ID = id := by
        have := List.find?_some hf
        simpa using this
      have hr : isRegistered endpoints id = true := by
        simp only [isRegistered, List.any_eq_true, decide_eq_true_eq]
        exact ⟨e, List.mem_of_find?_eq_some hf, hid⟩
      simp [List.filterMap_cons, hf, List.filter_cons, hr, ih, hid]

theorem mem_tickProbes (endpoints : List Endpoint) (schedule : Schedule) (e : Endpoint)
    (h : e ∈ tickProbes endpoints schedule) : e ∈ endpoints ∧ e.ID ∈ schedule.Endpoints := by
  unfold tickProbes at h
  obtain ⟨id, hid, hf⟩ := List.mem_filterMap.1 h
  have h1 : e.ID = id := by
    have := List.find?_some hf
    simpa using this
  exact ⟨List.mem_of_find?_eq_some hf, by rw [h1]; exact hid⟩

end Handlers

/-! ## Lemmas on the expiry sweep -/

namespace Handlers

/-- One removal of the loop: the slice loses the element at index `i`. -/
theorem sweep_step_live (cells : List Endpoint) (len i : Nat) (hi : i < len)
    (hlen : len ≤ cells.length) :
    (cells.take i ++ (cells.drop (i + 1)).take (len - (i + 1)) ++ cells.drop (len - 1)).take
        (len - 1) = (cells.take len).eraseIdx i := by
  have hlenAB : (cells.take i ++ (cells.drop (i + 1)).take (len - (i + 1))).length = len - 1 := by
    simp only [List.length_append, List.length_take, List.length_drop]
    omega
  rw [List.take_left' hlenAB, List.eraseIdx_eq_take_drop_succ, List.take_take, List.drop_take]
  have hmin : min i len = i := by omega
  rw [hmin]

theorem sweep_step_length (cells : List Endpoint) (len i : Nat) (hi : i < len)
    (hlen : len ≤ cells.length) :
    len - 1 ≤
      (cells.take i ++ (cells.drop (i + 1)).take (len - (i + 1)) ++ cells.drop (len - 1)).length := by
  simp only [List.length_append, List.length_take, List.length_drop]
  omega

theorem mem_eraseIdx_or {α : Type} (l : List α) (i : Nat) (a : α) (h : a ∈ l) :
    a ∈ l.eraseIdx i ∨ l[i]? = some a := by
  obtain ⟨j, hj⟩ := List.mem_iff_getElem?.1 h
  by_cases hji : j = i
  · subst hji
    exact Or.inr hj
  · exact Or.inl (List.mem_eraseIdx_iff_getElem?.2 ⟨j, hji, hj⟩)

/-- What a completed loop of `CheckExpiredEndpoints` did to the slice: it only erased
elements, each of them expired and with its ID recorded in `expiredIDs`. -/
theorem sweepLoop_spec (now : Time) (dbDelete : Int → Bool) :
    ∀ (fuel i : Nat) (st r : Sweep), st.len ≤ st.cells.length →
      sweepLoop now dbDelete fuel i st = some r →
      r.len ≤ r.cells.length ∧ r.live.Sublist st.live ∧
      (∀ e, e ∈ st.live → e ∈ r.live ∨ (isExpired now e = true ∧ e.ID ∈ r.expiredIDs)) ∧
      (∀ x, x ∈ st.expiredIDs → x ∈ r.expiredIDs) := by
  intro fuel
  induction fuel with
  | zero =>
    intro i st r hlen h
    simp only [sweepLoop, Option.some.injEq] at h
    subst h
    exact ⟨hlen, List.Sublist.refl _, fun e he => Or.inl he, fun x hx => hx⟩
  | succ fuel ih =>
    intro i st r hlen h
    unfold sweepLoop at h
    cases hget : st.cells[i]? with
    | none =>
      simp only [hget, Option.some.injEq] at h
      subst h
      exact ⟨hlen, List.Sublist.refl _, fun e he => Or.inl he, fun x hx => hx⟩
    | some endpoint =>
      simp only [hget] at h
      by_cases hexp : isExpired now endpoint = true
      · by_cases hi : i + 1 ≤ st.len
        · simp only [hexp, hi, if_true] at h
          have hstep := sweep_step_live st.cells st.len i (by omega) hlen
          have hlen1 := sweep_step_length st.cells st.len i (by omega) hlen
          obtain ⟨h1, h2, h3, h4⟩ := ih (i + 1) _ r hlen1 h
          have hlive : Sweep.live
              { cells := st.cells.take i ++ (st.cells.drop (i + 1)).take (st.len - (i + 1))
                          ++ st.cells.drop (st.len - 1),
                len := st.len - 1,
                expiredIDs := st.expiredIDs ++ [endpoint.ID],
                deleted := st.deleted ++ [(endpoint.ID, dbDelete endpoint.ID)] }
              = st.live.eraseIdx i := hstep
          rw [hlive] at h2 h3
          refine ⟨h1, h2.trans (List.eraseIdx_sublist _ _), ?_, ?_⟩
          · intro e he
            rcases mem_eraseIdx_or st.live i e he with hin | hat
            · exact h3 e hin
            · have hcell : st.live[i]? = st.cells[i]? :=
                List.getElem?_take_of_lt (by omega)
              rw [hcell, hget] at hat
              simp only [Option.some.injEq] at hat
              subst hat
              exact Or.inr ⟨hexp, h4 _ (by simp)⟩
          · intro x hx
            exact h4 x (by simp [hx])
        · simp [hexp, hi] at h
      · simp only [hexp] at h
        exact ih (i + 1) st r hlen h

/-- The loop does not read the results of `database.DeleteEndpoint`. -/
theorem sweepLoop_db (now : Time) (db1 db2 : Int → Bool) :
    ∀ (fuel i : Nat) (st1 st2 : Sweep), st1.cells = st2.cells → st1.len = st2.len →
      st1.expiredIDs = st2.expiredIDs →
      (sweepLoop now db1 fuel i st1).map (fun st => (st.cells, st.len, st.expiredIDs)) =
        (sweepLoop now db2 fuel i st2).map (fun st => (st.cells, st.len, st.expiredIDs)) := by
  intro fuel
  induction fuel with
  | zero =>
    intro i st1 st2 hc hl he
    simp [sweepLoop, hc, hl, he]
  | succ fuel ih =>
    intro i st1 st2 hc hl he
    unfold sweepLoop
    rw [hc]
    cases hget : st2.cells[i]? with
    | none => simp [hc, hl, he]
    | some endpoint =>
      simp only
      by_cases hexp : isExpired now endpoint = true
      · by_cases hi : i + 1 ≤ st2.len
        · have hi1 : i + 1 ≤ st1.len := by omega
          simp only [hexp, hi, hi1, if_true]
          apply ih
          · simp [hl]
          · simp [hl]
          · simp [he]
        · have hi1 : ¬ i + 1 ≤ st1.len := by omega
          simp [hexp, hi, hi1]
      · simp only [hexp]
        exact ih (i + 1) st1 st2 hc hl he

theorem removeFromSchedule_nil (schedule : Schedule) : removeFromSchedule [] schedule = schedule := by
  simp [removeFromSchedule]

/-- The state a completed `CheckExpiredEndpoints` returns, from the result of its loop. -/
theorem CheckExpiredEndpoints_some (s r : State) (now : Time) (dbDelete : Int → Bool)
    (h : CheckExpiredEndpoints s now dbDelete = some r) :
    ∃ st, sweepLoop now dbDelete s.endpoints.length 0
        ⟨s.endpoints, s.endpoints.length, [], []⟩ = some st ∧
      r = { s with endpoints := st.live,
                   schedules := s.schedules.map (removeFromSchedule st.expiredIDs) } := by
  unfold CheckExpiredEndpoints at h
  cases hloop : sweepLoop now dbDelete s.endpoints.length 0
      ⟨s.endpoints, s.endpoints.length, [], []⟩ with
  | none => simp [hloop] at h
  | some st =>
    refine ⟨st, rfl, ?_⟩
    simp only [hloop] at h
    by_cases hne : st.expiredIDs.length > 0
    · simp only [hne, if_true, Option.some.injEq] at h
      rw [← h]
      rfl
    · simp only [hne, if_false, Option.some.injEq] at h
      have hnil : st.expiredIDs = [] := by
        cases hx : st.expiredIDs with
        | nil => rfl
        | cons a t => simp [hx] at hne
      have hmap : s.schedules.map (removeFromSchedule []) = s.schedules := by
        rw [List.map_congr_left (fun sch _ => removeFromSchedule_nil sch)]
        simp
      rw [← h, hnil, hmap]
      rfl

theorem validateEndpointIDs_mem (endpoints : List Endpoint) (endpointIDs : List Int)
    (hv : validateEndpointIDs endpoints endpointIDs = true) (id : Int) (hid : id ∈ endpointIDs) :
    ∃ endpoint, endpoint ∈ endpoints ∧ endpoint.ID = id := by
  simp only [validateEndpointIDs, List.all_eq_true, List.any_eq_true, decide_eq_true_eq] at hv
  exact hv id hid

theorem mem_modify {α : Type} (f : α → α) (l : List α) (i : Nat) (x : α)
    (h : x ∈ l.modify f i) : x ∈ l ∨ ∃ y, y ∈ l ∧ x = f y := by
  induction l generalizing i with
  | nil => simp at h
  | cons a t ih =>
    cases i with
    | zero =>
      simp only [List.modify_zero_cons, List.mem_cons] at h
      rcases h with h | h
      · exact Or.inr ⟨a, by simp, h⟩
      · exact Or.inl (by simp [h])
    | succ i =>
      simp only [List.modify_succ_cons, List.mem_cons] at h
      rcases h with h | h
      · exact Or.inl (by simp [h])
      · rcases ih i h with h1 | ⟨y, hy, hxy⟩
        · exact Or.inl (by simp [h1])
        · exact Or.inr ⟨y, by simp [hy], hxy⟩

/-- The schedule API keeps every member id registered. -/
theorem applyOp_membersRegistered (s : State) (op : Op) (h : membersRegistered s) :
    membersRegistered (applyOp s op) := by
  intro sch hsch id hid
  rw [applyOp_endpoints]
  cases op with
  | create name interval ids now =>
    simp only [applyOp] at hsch
    by_cases hv : validateEndpointIDs s.endpoints ids = true
    · rw [CreateSchedule_schedules s name interval ids now hv] at hsch
      rcases List.mem_append.1 hsch with h1 | h1
      · exact h sch h1 id hid
      · simp only [List.mem_singleton] at h1
        subst h1
        exact validateEndpointIDs_mem _ _ hv id hid
    · have hs : (CreateSchedule s name interval ids now).1 = s := by
        simp [CreateSchedule, hv]
      rw [hs] at hsch
      exact h sch hsch id hid
  | update sid name interval ids =>
    simp only [applyOp] at hsch
    by_cases hv : validateEndpointIDs s.endpoints ids = true
    · cases hi : findScheduleIdx sid s.schedules with
      | none =>
        have hs : (UpdateSchedule s sid name interval ids).1 = s := by
          simp [UpdateSchedule, hv, hi]
        rw [hs] at hsch
        exact h sch hsch id hid
      | some i =>
        obtain ⟨old, -, -, hmod, -, -⟩ := UpdateSchedule_found s sid name interval ids i hv hi
        rw [hmod] at hsch
        rcases mem_modify _ _ _ _ hsch with h1 | ⟨y, hy, hxy⟩
        · exact h sch h1 id hid
        · subst hxy
          exact validateEndpointIDs_mem _ _ hv id hid
    · have hs : (UpdateSchedule s sid name interval ids).1 = s := by
        simp [UpdateSchedule, hv]
      rw [hs] at hsch
      exact h sch hsch id hid
  | delete sid =>
    simp only [applyOp, DeleteSchedule] at hsch
    cases hi : findScheduleIdx sid s.schedules with
    | none =>
      simp only [hi] at hsch
      exact h sch hsch id hid
    | some i =>
      simp only [hi, stopSchedule_schedules] at hsch
      have hmem : sch ∈ s.schedules := by
        rcases List.mem_append.1 hsch with h1 | h1
        · exact List.mem_of_mem_take h1
        · exact List.mem_of_mem_drop h1
      exact h sch hmem id hid

/-- A completed sweep keeps every member id registered. -/
theorem CheckExpiredEndpoints_membersRegistered (s r : State) (now : Time)
    (dbDelete : Int → Bool) (h : membersRegistered s)
    (hr : CheckExpiredEndpoints s now dbDelete = some r) : membersRegistered r := by
  obtain ⟨st, hloop, hstate⟩ := CheckExpiredEndpoints_some s r now dbDelete hr
  obtain ⟨-, -, hdich, -⟩ := sweepLoop_spec now dbDelete _ _ _ st (by simp) hloop
  subst hstate
  intro sch hsch id hid
  simp only [List.mem_map] at hsch
  obtain ⟨old, hold, hrem⟩ := hsch
  rw [removeFromSchedule_eq] at hrem
  subst hrem
  simp only [List.mem_filter, decide_eq_true_eq] at hid
  obtain ⟨e, he, heid⟩ := h old hold id hid.1
  have helive : e ∈ Sweep.live ⟨s.endpoints, s.endpoints.length, [], []⟩ := by
    simpa [Sweep.live] using he
  rcases hdich e helive with hin | ⟨-, hexp⟩
  · exact ⟨e, hin, heid⟩
  · rw [heid] at hexp
    exact absurd hexp hid.2

end Handlers

/-! ## Lemmas on the frame of the expiry sweep -/

namespace Handlers

/-- Erasing an element that a predicate rejects does not change what it keeps. -/
theorem filter_eraseIdx_of_rejected {α : Type} (p : α → Bool) (l : List α) (i : Nat) (x : α)
    (hget : l[i]? = some x) (hp : p x = false) : (l.eraseIdx i).filter p = l.filter p := by
  induction l generalizing i with
  | nil => simp at hget
  | cons a t ih =>
    cases i with
    | zero =>
      simp only [List.getElem?_cons_zero, Option.some.injEq] at hget
      subst hget
      simp [List.eraseIdx_cons_zero, List.filter_cons, hp]
    | succ i =>
      simp only [List.getElem?_cons_succ] at hget
      simp only [List.eraseIdx_cons_succ, List.filter_cons, ih i hget]

/-- A completed loop of `CheckExpiredEndpoints` keeps the endpoints that are not expired,
in number and order. -/
theorem sweepLoop_filter (now : Time) (dbDelete : Int → Bool) :
    ∀ (fuel i : Nat) (st r : Sweep), st.len ≤ st.cells.length →
      sweepLoop now dbDelete fuel i st = some r →
      r.live.filter (fun e => !isExpired now e) = st.live.filter (fun e => !isExpired now e) := by
  intro fuel
  induction fuel with
  | zero =>
    intro i st r _ h
    simp only [sweepLoop, Option.some.injEq] at h
    subst h
    rfl
  | succ fuel ih =>
    intro i st r hlen h
    unfold sweepLoop at h
    cases hget : st.cells[i]? with
    | none =>
      simp only [hget, Option.some.injEq] at h
      subst h
      rfl
    | some endpoint =>
      simp only [hget] at h
      by_cases hexp : isExpired now endpoint = true
      · by_cases hi : i + 1 ≤ st.len
        · simp only [hexp, hi, if_true] at h
          have hstep := sweep_step_live st.cells st.len i (by omega) hlen
          have hlen1 := sweep_step_length st.cells st.len i (by omega) hlen
          have hrec := ih (i + 1) _ r hlen1 h
          have hlive : Sweep.live
              { cells := st.cells.take i ++ (st.cells.drop (i + 1)).take (st.len - (i + 1))
                          ++ st.cells.drop (st.len - 1),
                len := st.len - 1,
                expiredIDs := st.expiredIDs ++ [endpoint.ID],
                deleted := st.deleted ++ [(endpoint.ID, dbDelete endpoint.ID)] }
              = st.live.eraseIdx i := hstep
          rw [hlive] at hrec
          rw [hrec]
          have hcell : st.live[i]? = some endpoint := by
            have : st.live[i]? = st.cells[i]? := List.getElem?_take_of_lt (by omega)
            rw [this, hget]
          exact filter_eraseIdx_of_rejected _ _ i endpoint hcell (by simp [hexp])
        · simp [hexp, hi] at h
      · simp only [hexp] at h
        exact ih (i + 1) st r hlen h

/-- A loop that meets no expired endpoint changes nothing. -/
theorem sweepLoop_none_expired (now : Time) (dbDelete : Int → Bool) :
    ∀ (fuel i : Nat) (st : Sweep), (∀ e, e ∈ st.cells → isExpired now e = false) →
      sweepLoop now dbDelete fuel i st = some st := by
  intro fuel
  induction fuel with
  | zero =>
    intro i st _
    rfl
  | succ fuel ih =>
    intro i st hall
    unfold sweepLoop
    cases hget : st.cells[i]? with
    | none => rfl
    | some endpoint =>
      have hmem : endpoint ∈ st.cells := List.mem_iff_getElem?.2 ⟨i, hget⟩
      simp only [hall endpoint hmem]
      exact ih (i + 1) st hall

end Handlers

/-! ## Lemmas on the entry a tick probes -/

namespace Handlers

/-- The element `find?` returns is at the least index the predicate accepts. -/
theorem find?_first {α : Type} (p : α → Bool) (l : List α) (a : α)
    (h : l.find? p = some a) :
    ∃ i : Nat, l[i]? = some a ∧ ∀ (j : Nat) (b : α), j < i → l[j]? = some b → p b = false := by
  induction l with
  | nil => simp at h
  | cons x t ih =>
    by_cases hx : p x = true
    · simp only [List.find?_cons, hx, Option.some.injEq] at h
      subst h
      exact ⟨0, by simp, fun j b hj => absurd hj (by omega)⟩
    · have hx2 : p x = false := by simpa using hx
      simp only [List.find?_cons, hx2] at h
      obtain ⟨i, hi, hbefore⟩ := ih h
      refine ⟨i + 1, by simpa using hi, ?_⟩
      intro j b hj hget
      cases j with
      | zero =>
        simp only [List.getElem?_cons_zero, Option.some.injEq] at hget
        subst hget
        exact hx2
      | succ j =>
        simp only [List.getElem?_cons_succ] at hget
        exact hbefore j b (by omega) hget

/-- Every endpoint a tick probes is the first registry entry that carries its ID. -/
theorem tickProbes_first (endpoints : List Endpoint) (schedule : Schedule) (e : Endpoint)
    (h : e ∈ tickProbes endpoints schedule) :
    ∃ i : Nat, endpoints[i]? = some e ∧
      ∀ (j : Nat) (other : Endpoint), j < i → endpoints[j]? = some other → other.ID ≠ e.ID := by
  unfold tickProbes at h
  obtain ⟨id, -, hf⟩ := List.mem_filterMap.1 h
  have hid : e.ID = id := by
    have := List.find?_some hf
    simpa using this
  obtain ⟨i, hi, hbefore⟩ := find?_first _ _ _ hf
  refine ⟨i, hi, ?_⟩
  intro j other hj hget
  have := hbefore j other hj hget
  rw [hid]
  simpa using this

/-- The ticker `startSchedule` creates holds the schedule value it was called with. -/
theorem startSchedule_captures (s s1 : State) (schedule : Schedule)
    (h : startSchedule s schedule = some s1) :
    s1.tickers[s.tickers.length]? = some ⟨tickerPeriod schedule.Interval, schedule, false⟩ ∧
    mapGet s1.runningSchedules schedule.ID = some s.tickers.length := by
  unfold startSchedule at h
  split at h
  · simp at h
  · simp only [Option.some.injEq] at h
    subst h
    exact ⟨by simp, mapGet_mapSet_same _ _ _⟩

end Handlers

/-! ## Lemmas on what the expiry sweep removes -/

namespace Handlers

theorem perm_cons_eraseIdx {α : Type} (l : List α) (i : Nat) (x : α) (h : l[i]? = some x) :
    l.Perm (x :: l.eraseIdx i) := by
  induction l generalizing i with
  | nil => simp at h
  | cons a t ih =>
    cases i with
    | zero =>
      simp only [List.getElem?_cons_zero, Option.some.injEq] at h
      subst h
      simp [List.eraseIdx_cons_zero]
    | succ i =>
      simp only [List.getElem?_cons_succ] at h
      simp only [List.eraseIdx_cons_succ]
      exact ((ih i h).cons a).trans (List.Perm.swap x a _)

/-- The endpoints a completed loop of `CheckExpiredEndpoints` took out of the slice: all
expired, their IDs appended to `expiredIDs` and each handed to `database.DeleteEndpoint`,
whose result is recorded and has no other effect. -/
theorem sweepLoop_removed (now : Time) (dbDelete : Int → Bool) :
    ∀ (fuel i : Nat) (st r : Sweep), st.len ≤ st.cells.length →
      sweepLoop now dbDelete fuel i st = some r →
      ∃ removed : List Endpoint,
        (∀ e, e ∈ removed → isExpired now e = true) ∧
        st.live.Perm (r.live ++ removed) ∧
        r.expiredIDs = st.expiredIDs ++ removed.map (fun e => e.ID) ∧
        r.deleted = st.deleted ++ removed.map (fun e => (e.ID, dbDelete e.ID)) := by
  intro fuel
  induction fuel with
  | zero =>
    intro i st r _ h
    simp only [sweepLoop, Option.some.injEq] at h
    subst h
    exact ⟨[], by simp, by simp, by simp, by simp⟩
  | succ fuel ih =>
    intro i st r hlen h
    unfold sweepLoop at h
    cases hget : st.cells[i]? with
    | none =>
      simp only [hget, Option.some.injEq] at h
      subst h
      exact ⟨[], by simp, by simp, by simp, by simp⟩
    | some endpoint =>
      simp only [hget] at h
      by_cases hexp : isExpired now endpoint = true
      · by_cases hi : i + 1 ≤ st.len
        · simp only [hexp, hi, if_true] at h
          have hstep := sweep_step_live st.cells st.len i (by omega) hlen
          have hlen1 := sweep_step_length st.cells st.len i (by omega) hlen
          obtain ⟨removed, hall, hperm, hids, hdel⟩ := ih (i + 1) _ r hlen1 h
          have hlive : Sweep.live
              { cells := st.cells.take i ++ (st.cells.drop (i + 1)).take (st.len - (i + 1))
                          ++ st.cells.drop (st.len - 1),
                len := st.len - 1,
                expiredIDs := st.expiredIDs ++ [endpoint.ID],
                deleted := st.deleted ++ [(endpoint.ID, dbDelete endpoint.ID)] }
              = st.live.eraseIdx i := hstep
          rw [hlive] at hperm
          have hcell : st.live[i]? = some endpoint := by
            have : st.live[i]? = st.cells[i]? := List.getElem?_take_of_lt (by omega)
            rw [this, hget]
          refine ⟨endpoint :: removed, ?_, ?_, ?_, ?_⟩
          · intro e he
            rcases List.mem_cons.1 he with h1 | h1
            · rw [h1]
              exact hexp
            · exact hall e h1
          · exact ((perm_cons_eraseIdx st.live i endpoint hcell).trans (hperm.cons endpoint)).trans
              List.perm_middle.symm
          · rw [hids]
            simp
          · rw [hdel]
            simp
        · simp [hexp, hi] at h
      · simp only [hexp] at h
        exact ih (i + 1) st r hlen h

/-- What a completed sweep removed: expired endpoints, taken out of the registry, their
ids taken out of every schedule, whatever `database.DeleteEndpoint` answered for them. -/
theorem CheckExpiredEndpoints_removed (s r : State) (now : Time) (dbDelete : Int → Bool)
    (h : CheckExpiredEndpoints s now dbDelete = some r) :
    ∃ removed : List Endpoint,
      (∀ e, e ∈ removed → isExpired now e = true) ∧
      s.endpoints.Perm (r.endpoints ++ removed) ∧
      sweepDeletes s now dbDelete = removed.map (fun e => (e.ID, dbDelete e.ID)) ∧
      r.schedules = s.schedules.map (removeFromSchedule (removed.map (fun e => e.ID))) ∧
      (∀ e, e ∈ removed → ∀ sch, sch ∈ r.schedules → e.ID ∉ sch.Endpoints) := by
  obtain ⟨st, hloop, hstate⟩ := CheckExpiredEndpoints_some s r now dbDelete h
  obtain ⟨removed, hall, hperm, hids, hdel⟩ :=
    sweepLoop_removed now dbDelete _ _ _ st (by simp) hloop
  have hlive0 : Sweep.live ⟨s.endpoints, s.endpoints.length, [], []⟩ = s.endpoints := by
    simp [Sweep.live]
  rw [hlive0] at hperm
  simp only [List.nil_append] at hids hdel
  have hsched : r.schedules = s.schedules.map (removeFromSchedule (removed.map (fun e => e.ID))) := by
    rw [hstate, hids]
  refine ⟨removed, hall, ?_, ?_, hsched, ?_⟩
  · rw [hstate]
    exact hperm
  · simp only [sweepDeletes, hloop, hdel]
  · intro e he sch hsch hmem
    rw [hsched] at hsch
    obtain ⟨old, -, hold⟩ := List.mem_map.1 hsch
    rw [removeFromSchedule_eq] at hold
    subst hold
    simp only [List.mem_filter, decide_eq_true_eq] at hmem
    exact hmem.2 (List.mem_map.2 ⟨e, he, rfl⟩)

end Handlers
/-! ## Claims -/

/-- C1 (counterexample). The GET completes at the first attempt with status code 500,
which is outside [200,300); `checkEndpoint` of `main.go` and `checkEndpoint` of
`handlers/monitor.go` both assign "ok", not "degraded". -/
theorem C1_counterexample :
    CompletesAt always500 0 500 ∧ ¬ (200 ≤ (500 : Int) ∧ (500 : Int) < 300) ∧
    (Main.checkEndpoint always500 dbOk ⟨7⟩ [] demoEndpoint).endpoint.Status = "ok" ∧
    (Handlers.checkEndpoint demoState always500 ⟨7⟩ demoEndpoint).2.status = "ok" ∧
    ((Handlers.checkEndpoint demoState always500 ⟨7⟩ demoEndpoint).1.endpoints.map
      (fun e => (e.ID, e.Status))) = [(1, "ok"), (2, "unknown")] ∧
    (Main.checkEndpoint always500 dbOk ⟨7⟩ [] demoEndpoint).endpoint.Status ≠
      (if 200 ≤ (500 : Int) ∧ (500 : Int) < 300 then "ok" else "degraded") := by
  refine ⟨⟨fun j hj => absurd hj (by omega), rfl⟩, by decide, by decide, by decide, by decide,
    by decide⟩

/-- C1 (amended). When the GET of a probe completes with a response, `checkEndpoint` of
`main.go` (completion at one of its three attempts) sets the endpoint's status to "ok"
whatever the status code; `checkEndpoint` of `handlers/monitor.go` (completion of its
single GET) hands `updateEndpointStatus` the status "ok" when the body is read and
"error" when reading the body fails, whatever the status code, and that status is
written to the first registry entry with the endpoint's ID. Neither function ever
assigns "degraded". -/
theorem C1_completed_response_status (get : Nat → GetResult) (db : Nat → Option String)
    (now : Time) (cf : List (Int × Int)) (endpoint : Endpoint) (s : Handlers.State) :
    (∀ i c, i < 3 → CompletesAt get i c →
      (Main.checkEndpoint get db now cf endpoint).endpoint.Status = "ok") ∧
    (∀ c b, get 0 = GetResult.response c b →
      (Handlers.checkEndpoint s get now endpoint).2.status = (if b.isSome then "ok" else "error") ∧
      ∀ k, Handlers.findEndpointIdx endpoint.ID s.endpoints = some k →
        ((Handlers.checkEndpoint s get now endpoint).1.endpoints[k]?).map (fun e => e.Status) =
          some (if b.isSome then "ok" else "error")) ∧
    (Main.checkEndpoint get db now cf endpoint).endpoint.Status ≠ "degraded" ∧
    (Handlers.checkEndpoint s get now endpoint).2.status ≠ "degraded" := by
  refine ⟨?_, ?_, ?_, ?_⟩
  · intro i c hi h
    have := (Main.checkEndpoint_completes get db now cf endpoint i c hi h).2.1
    simp only at this
    rw [this]
  · intro c b h
    cases b with
    | none =>
      refine ⟨by simp [Handlers.checkEndpoint, h], ?_⟩
      intro k hk
      have hlt := Handlers.findEndpointIdx_lt _ _ _ hk
      simp [Handlers.checkEndpoint, h, Handlers.updateEndpointStatus_entry _ _ _ _ _ _ k hk,
        List.getElem?_eq_getElem hlt]
    | some body =>
      refine ⟨by simp [Handlers.checkEndpoint, h], ?_⟩
      intro k hk
      have hlt := Handlers.findEndpointIdx_lt _ _ _ hk
      simp [Handlers.checkEndpoint, h, Handlers.updateEndpointStatus_entry _ _ _ _ _ _ k hk,
        List.getElem?_eq_getElem hlt]
  · rcases Main.completes_or_exhausted get with ⟨i, c, hi, h⟩ | h
    · have := (Main.checkEndpoint_completes get db now cf endpoint i c hi h).2.1
      simp only at this
      rw [this]
      simp
    · have := (Main.checkEndpoint_exhausted get db now cf endpoint h).2.1
      simp only at this
      rw [this]
      simp
  · unfold Handlers.checkEndpoint
    split <;> simp

/-- C1 (witness). The amended statement at a GET that answers 500 at the first attempt. -/
theorem C1_completed_response_status_witness :
    (Main.checkEndpoint always500 dbOk ⟨7⟩ [] demoEndpoint).endpoint.Status = "ok" ∧
    (Handlers.checkEndpoint demoState always500 ⟨7⟩ demoEndpoint).2.status = "ok" :=
  ⟨(C1_completed_response_status always500 dbOk ⟨7⟩ [] demoEndpoint demoState).1 0 500
      (by decide) ⟨fun j hj => absurd hj (by omega), rfl⟩,
   ((C1_completed_response_status always500 dbOk ⟨7⟩ [] demoEndpoint demoState).2.1 500
      (some "") rfl).1⟩


/-- C2 (counterexample). Four consecutive probes of one endpoint, each answered 500,
starting from a failure count of 0: the count ends at 4 and two "WARNING" alerts are
raised, one by the third probe and one by the fourth, not exactly one. -/
theorem C2_counterexample :
    counterGet (Main.runProbes demoEndpoint [tick500, tick500, tick500, tick500] []).1 1 = 4 ∧
    Main.alertsPerProbe (Main.runProbes demoEndpoint [tick500, tick500, tick500, tick500] []).2
      = [0, 0, 1, 1] ∧
    (Main.alertsPerProbe
      (Main.runProbes demoEndpoint [tick500, tick500, tick500, tick500] []).2).sum ≠ 1 := by
  refine ⟨by decide, by decide, by decide⟩

/-- C2 (amended). Starting from a failure count of 0, n consecutive probes by
`checkEndpoint` of `main.go` (n below 2^63) that each complete with a non-2xx status
leave the failure count at n; the first two probes raise no "WARNING" alert and every
probe from the third on raises one, so n - 2 alerts are raised when n is at least 3. -/
theorem C2_failure_streak_alerts (endpoint : Endpoint) (ticks : List Main.Tick)
    (cf : List (Int × Int)) (h0 : counterGet cf endpoint.ID = 0)
    (hn : (ticks.length : Int) ≤ 9223372036854775807)
    (hticks : ∀ t, t ∈ ticks → t.completesNon2xx) :
    counterGet (Main.runProbes endpoint ticks cf).1 endpoint.ID = ticks.length ∧
    Main.alertsPerProbe (Main.runProbes endpoint ticks cf).2 =
      (List.range ticks.length).map (fun k => if 3 ≤ k + 1 then 1 else 0) ∧
    (Main.alertsPerProbe (Main.runProbes endpoint ticks cf).2).sum = ticks.length - 2 := by
  have hrun := Main.runProbes_streak endpoint ticks cf 0 h0 (by omega) (by simpa using hn) hticks
  refine ⟨by simpa using hrun.1, by simpa using hrun.2, ?_⟩
  rw [hrun.2]
  simpa using Main.sum_alerts_from ticks.length 0

/-- C2 (witness). The amended statement at three probes answered 500. -/
theorem C2_failure_streak_alerts_witness :
    counterGet (Main.runProbes demoEndpoint [tick500, tick500, tick500] []).1 demoEndpoint.ID
      = ([tick500, tick500, tick500] : List Main.Tick).length ∧
    Main.alertsPerProbe (Main.runProbes demoEndpoint [tick500, tick500, tick500] []).2 =
      (List.range ([tick500, tick500, tick500] : List Main.Tick).length).map
        (fun k => if 3 ≤ k + 1 then 1 else 0) ∧
    (Main.alertsPerProbe (Main.runProbes demoEndpoint [tick500, tick500, tick500] []).2).sum
      = ([tick500, tick500, tick500] : List Main.Tick).length - 2 :=
  C2_failure_streak_alerts demoEndpoint [tick500, tick500, tick500] [] (by decide) (by decide)
    (fun t ht => by
      have h : t = tick500 := by simpa using ht
      subst h
      exact ⟨0, 500, by decide, ⟨fun j hj => absurd hj (by omega), rfl⟩, by decide⟩)

/-- C3 (counterexample). With `consecutiveFailures[1] = 2`, a probe of endpoint 1 whose
three GET attempts all fail at transport level leaves the counter at 2: it is not
increased by 1. -/
theorem C3_counterexample :
    (∀ j, j < 3 → (alwaysDown j).isError = true) ∧
    (Main.checkEndpoint alwaysDown dbOk ⟨7⟩ [(1, 2)] demoEndpoint).attempts = 3 ∧
    (Main.checkEndpoint alwaysDown dbOk ⟨7⟩ [(1, 2)] demoEndpoint).endpoint.Status = "error" ∧
    counterGet (Main.checkEndpoint alwaysDown dbOk ⟨7⟩ [(1, 2)] demoEndpoint).consecutiveFailures
      demoEndpoint.ID = 2 ∧
    counterGet (Main.checkEndpoint alwaysDown dbOk ⟨7⟩ [(1, 2)] demoEndpoint).consecutiveFailures
      demoEndpoint.ID ≠ counterGet [(1, 2)] demoEndpoint.ID + 1 := by
  refine ⟨fun j _ => rfl, by decide, by decide, by decide, by decide⟩

/-- C3 (amended). For every endpoint id and probe of `checkEndpoint` of `main.go`: a
completed 2xx response sets `consecutiveFailures[id]` to 0; a completed non-2xx
response sets it to the 64-bit successor of its value, which is the value plus 1
below the largest `int`; a transport error that exhausts all attempts leaves the
whole map as it was; in every case the counters of all other ids are unchanged. -/
theorem C3_counter_update (get : Nat → GetResult) (db : Nat → Option String) (now : Time)
    (cf : List (Int × Int)) (endpoint : Endpoint) :
    (∀ i c, i < 3 → CompletesAt get i c → 200 ≤ c ∧ c < 300 →
      counterGet (Main.checkEndpoint get db now cf endpoint).consecutiveFailures endpoint.ID = 0) ∧
    (∀ i c, i < 3 → CompletesAt get i c → c < 200 ∨ c ≥ 300 →
      counterGet (Main.checkEndpoint get db now cf endpoint).consecutiveFailures endpoint.ID
        = wrapInt64 (counterGet cf endpoint.ID + 1) ∧
      (-9223372036854775808 ≤ counterGet cf endpoint.ID →
        counterGet cf endpoint.ID < 9223372036854775807 →
        counterGet (Main.checkEndpoint get db now cf endpoint).consecutiveFailures endpoint.ID
          = counterGet cf endpoint.ID + 1)) ∧
    ((∀ j, j < 3 → (get j).isError = true) →
      (Main.checkEndpoint get db now cf endpoint).consecutiveFailures = cf) ∧
    (∀ x, x ≠ endpoint.ID →
      counterGet (Main.checkEndpoint get db now cf endpoint).consecutiveFailures x
        = counterGet cf x) := by
  refine ⟨?_, ?_, ?_, ?_⟩
  · intro i c hi h hc
    have := (Main.checkEndpoint_completes get db now cf endpoint i c hi h).2.2.1
    simp only at this
    have hneg : ¬ (c < 200 ∨ c ≥ 300) := by omega
    rw [this]
    simp [Main.countResponse, hneg, counterGet_mapSet_same]
  · intro i c hi h hc
    have := (Main.checkEndpoint_completes get db now cf endpoint i c hi h).2.2.1
    simp only at this
    have hval : counterGet (Main.checkEndpoint get db now cf endpoint).consecutiveFailures
        endpoint.ID = wrapInt64 (counterGet cf endpoint.ID + 1) := by
      rw [this]
      simp [Main.countResponse, hc, counterGet_mapSet_same]
    refine ⟨hval, ?_⟩
    intro h1 h2
    rw [hval, wrapInt64_of_range _ (by omega) (by omega)]
  · intro h
    exact (Main.checkEndpoint_exhausted get db now cf endpoint h).2.2.1
  · intro x hx
    rcases Main.completes_or_exhausted get with ⟨i, c, hi, h⟩ | h
    · have := (Main.checkEndpoint_completes get db now cf endpoint i c hi h).2.2.1
      simp only at this
      rw [this]
      unfold Main.countResponse
      split <;> exact counterGet_mapSet_other _ _ _ _ hx
    · have := (Main.checkEndpoint_exhausted get db now cf endpoint h).2.2.1
      simp only at this
      rw [this]

/-- C3 (witness). The amended statement at a probe answered 500 with the counter at 2,
and at a probe whose attempts all fail. -/
theorem C3_counter_update_witness :
    counterGet (Main.checkEndpoint always500 dbOk ⟨7⟩ [(1, 2)] demoEndpoint).consecutiveFailures
      demoEndpoint.ID = counterGet [(1, 2)] demoEndpoint.ID + 1 ∧
    (Main.checkEndpoint alwaysDown dbOk ⟨7⟩ [(1, 2)] demoEndpoint).consecutiveFailures = [(1, 2)] ∧
    counterGet (Main.checkEndpoint always500 dbOk ⟨7⟩ [(1, 2)] demoEndpoint).consecutiveFailures 5
      = counterGet [(1, 2)] 5 :=
  ⟨((C3_counter_update always500 dbOk ⟨7⟩ [(1, 2)] demoEndpoint).2.1 0 500 (by decide)
      ⟨fun j hj => absurd hj (by omega), rfl⟩ (by decide)).2 (by decide) (by decide),
   (C3_counter_update alwaysDown dbOk ⟨7⟩ [(1, 2)] demoEndpoint).2.2.1 (fun j _ => rfl),
   (C3_counter_update always500 dbOk ⟨7⟩ [(1, 2)] demoEndpoint).2.2.2 5 (by decide)⟩

/-- C4 (counterexample). The first GET fails at transport level and the second would
answer 200: `checkEndpoint` of `handlers/monitor.go` makes one attempt only and
assigns "error", while `checkEndpoint` of `main.go` makes two and assigns "ok". -/
theorem C4_counterexample :
    (failsOnce 0).isError = true ∧ (failsOnce 1).isError = false ∧
    (Handlers.checkEndpoint demoState failsOnce ⟨7⟩ demoEndpoint).2 = ⟨1, "error"⟩ ∧
    ((Handlers.checkEndpoint demoState failsOnce ⟨7⟩ demoEndpoint).1.endpoints.map
      (fun e => (e.ID, e.Status))) = [(1, "error"), (2, "unknown")] ∧
    (Main.checkEndpoint failsOnce dbOk ⟨7⟩ [] demoEndpoint).attempts = 2 ∧
    (Main.checkEndpoint failsOnce dbOk ⟨7⟩ [] demoEndpoint).endpoint.Status = "ok" := by
  refine ⟨by decide, by decide, by decide, by decide, by decide, by decide⟩

/-- C4 (amended). For every sequence of transport outcomes, `checkEndpoint` of `main.go`
issues at least 1 and at most 3 GET attempts, stops at the first attempt that completes
with a response, and assigns "error" if and only if 3 attempts were made and all 3
failed at transport level; when its first attempt fails and its second completes it
does not assign "error". `checkEndpoint` of `handlers/monitor.go` issues exactly one
GET attempt and assigns "error" if and only if that attempt fails at transport level
or the body of its response cannot be read. -/
theorem C4_attempts_and_error (get : Nat → GetResult) (db : Nat → Option String) (now : Time)
    (cf : List (Int × Int)) (endpoint : Endpoint) (s : Handlers.State) :
    1 ≤ (Main.checkEndpoint get db now cf endpoint).attempts ∧
    (Main.checkEndpoint get db now cf endpoint).attempts ≤ 3 ∧
    (∀ i c, i < 3 → CompletesAt get i c →
      (Main.checkEndpoint get db now cf endpoint).attempts = i + 1) ∧
    ((Main.checkEndpoint get db now cf endpoint).endpoint.Status = "error" ↔
      (Main.checkEndpoint get db now cf endpoint).attempts = 3 ∧
        ∀ j, j < 3 → (get j).isError = true) ∧
    ((get 0).isError = true → (get 1).isError = false →
      (Main.checkEndpoint get db now cf endpoint).endpoint.Status ≠ "error" ∧
      (Main.checkEndpoint get db now cf endpoint).attempts = 2) ∧
    (Handlers.checkEndpoint s get now endpoint).2.attempts = 1 ∧
    ((Handlers.checkEndpoint s get now endpoint).2.status = "error" ↔
      (get 0).isError = true ∨ ∃ c, get 0 = GetResult.response c none) := by
  have hstatus : (Main.checkEndpoint get db now cf endpoint).endpoint.Status = "error" ↔
      (Main.checkEndpoint get db now cf endpoint).attempts = 3 ∧
        ∀ j, j < 3 → (get j).isError = true := by
    rcases Main.completes_or_exhausted get with ⟨i, c, hi, h⟩ | h
    · have hp := Main.checkEndpoint_completes get db now cf endpoint i c hi h
      simp only at hp
      constructor
      · intro hs
        rw [hp.2.1] at hs
        simp at hs
      · rintro ⟨-, hall⟩
        have h1 := hall i hi
        obtain ⟨b, hb⟩ := (code?_iff _ _).1 h.2
        rw [hb] at h1
        simp [GetResult.isError] at h1
    · have hp := Main.checkEndpoint_exhausted get db now cf endpoint h
      simp only at hp
      constructor
      · intro _
        exact ⟨hp.1, h⟩
      · intro _
        rw [hp.2.1]
  refine ⟨?_, ?_, ?_, hstatus, ?_, ?_, ?_⟩
  · rcases Main.completes_or_exhausted get with ⟨i, c, hi, h⟩ | h
    · rw [(Main.checkEndpoint_completes get db now cf endpoint i c hi h).1]
      omega
    · rw [(Main.checkEndpoint_exhausted get db now cf endpoint h).1]
      omega
  · rcases Main.completes_or_exhausted get with ⟨i, c, hi, h⟩ | h
    · rw [(Main.checkEndpoint_completes get db now cf endpoint i c hi h).1]
      omega
    · rw [(Main.checkEndpoint_exhausted get db now cf endpoint h).1]
  · intro i c hi h
    exact (Main.checkEndpoint_completes get db now cf endpoint i c hi h).1
  · intro h0 h1
    cases hg : get 1 with
    | transportError m => simp [hg, GetResult.isError] at h1
    | response c b =>
      have hc : CompletesAt get 1 c := by
        refine ⟨?_, by simp [hg, GetResult.code?]⟩
        intro j hj
        interval_cases j
        exact h0
      have hp := Main.checkEndpoint_completes get db now cf endpoint 1 c (by omega) hc
      simp only at hp
      refine ⟨?_, hp.1⟩
      rw [hp.2.1]
      simp
  · unfold Handlers.checkEndpoint
    split <;> rfl
  · unfold Handlers.checkEndpoint
    split <;> rename_i heq <;> simp [heq, GetResult.isError]

/-- C4 (witness). The amended statement at a network whose first GET fails and whose
second answers 200. -/
theorem C4_attempts_and_error_witness :
    (Main.checkEndpoint failsOnce dbOk ⟨7⟩ [] demoEndpoint).endpoint.Status ≠ "error" ∧
    (Main.checkEndpoint failsOnce dbOk ⟨7⟩ [] demoEndpoint).attempts = 2 :=
  (C4_attempts_and_error failsOnce dbOk ⟨7⟩ [] demoEndpoint demoState).2.2.2.2.1
    (by decide) (by decide)

/-- C5 (failing input). Registry `expiredA, expiredB, keptC` with a schedule of ids
1, 2, 3, swept at instant 100: `expiredB` (ExpiresAt 20, non-zero and before 100) is
still in the registry and its id 2 is still in the schedule. Removing `expiredA`
moves `expiredB` to index 0, and the `range` goes on at index 1. -/
theorem C5_sweep_skips_expired :
    Handlers.isExpired ⟨100⟩ expiredB = true ∧
    (Handlers.CheckExpiredEndpoints sweepState ⟨100⟩ deleteOk).map (fun s => s.endpoints)
      = some [expiredB, keptC] ∧
    (Handlers.CheckExpiredEndpoints sweepState ⟨100⟩ deleteOk).map
      (fun s => s.schedules.map (fun sch => sch.Endpoints)) = some [[2, 3]] := by
  refine ⟨by decide, by decide, by decide⟩

/-- C6 (counterexample). A registry holding the single endpoint `expiresAt100`, whose
ExpiresAt is non-zero and equal to now = 100: the test does not select it and the sweep
leaves registry and schedule as they were. -/
theorem C6_counterexample :
    (expiresAt100.ExpiresAt.ns ≠ 0 ∧ expiresAt100.ExpiresAt.ns ≤ 100) ∧
    Handlers.isExpired ⟨100⟩ expiresAt100 = false ∧
    Handlers.CheckExpiredEndpoints singleState ⟨100⟩ deleteOk = some singleState := by
  refine ⟨by decide, by decide, by decide⟩

/-- C6 (amended). The expiry test of the sweep selects an endpoint if and only if its
ExpiresAt is non-zero and strictly before now. For a registry holding a single endpoint
the sweep empties the registry and removes the id from every schedule when the
endpoint's ExpiresAt is non-zero and before now, and changes nothing otherwise, in
particular when ExpiresAt equals now. An endpoint with a zero ExpiresAt is never
selected. -/
theorem C6_expiry_test (now : Time) (endpoint : Endpoint) (s : Handlers.State)
    (dbDelete : Int → Bool) :
    (Handlers.isExpired now endpoint = true ↔
      endpoint.ExpiresAt.ns ≠ 0 ∧ endpoint.ExpiresAt.ns < now.ns) ∧
    (s.endpoints = [endpoint] → endpoint.ExpiresAt.ns ≠ 0 → endpoint.ExpiresAt.ns < now.ns →
      Handlers.CheckExpiredEndpoints s now dbDelete =
        some (Handlers.removeEndpointsFromSchedules { s with endpoints := [] } [endpoint.ID])) ∧
    (s.endpoints = [endpoint] → endpoint.ExpiresAt = now →
      Handlers.CheckExpiredEndpoints s now dbDelete = some s) ∧
    (endpoint.ExpiresAt.ns = 0 → Handlers.isExpired now endpoint = false) := by
  have hiff : Handlers.isExpired now endpoint = true ↔
      endpoint.ExpiresAt.ns ≠ 0 ∧ endpoint.ExpiresAt.ns < now.ns := by
    simp [Handlers.isExpired, Time.IsZero, Time.Before]
  refine ⟨hiff, ?_, ?_, ?_⟩
  · intro hs h0 hlt
    have hexp : Handlers.isExpired now endpoint = true := hiff.2 ⟨h0, hlt⟩
    simp [Handlers.CheckExpiredEndpoints, Handlers.sweepLoop, hs, hexp]
  · intro hs heq
    have hexp : Handlers.isExpired now endpoint = false := by
      simp [Handlers.isExpired, Time.IsZero, Time.Before, heq]
    simp [Handlers.CheckExpiredEndpoints, Handlers.sweepLoop, hs, hexp]
    cases s
    simp_all
  · intro h0
    simp [Handlers.isExpired, Time.IsZero, Time.Before, h0]

/-- C6 (witness). The amended statement at `expiresAt100`, swept at instant 101 (removed)
and at instant 100 (kept). -/
theorem C6_expiry_test_witness :
    Handlers.CheckExpiredEndpoints singleState ⟨101⟩ deleteOk =
      some (Handlers.removeEndpointsFromSchedules { singleState with endpoints := [] }
        [expiresAt100.ID]) ∧
    Handlers.CheckExpiredEndpoints singleState ⟨100⟩ deleteOk = some singleState ∧
    Handlers.isExpired ⟨100⟩ keptC = false :=
  ⟨(C6_expiry_test ⟨101⟩ expiresAt100 singleState deleteOk).2.1 rfl (by decide) (by decide),
   (C6_expiry_test ⟨100⟩ expiresAt100 singleState deleteOk).2.2.1 rfl rfl,
   (C6_expiry_test ⟨100⟩ keptC singleState deleteOk).2.2.2 rfl⟩

/-- C7 (counterexample). In `demoState`, `CreateSchedule` makes schedule 1 with the single
member 1; after `removeEndpointsFromSchedules` with id 1 the schedule is still in
`schedules`, with no member, and `runningSchedules` still holds its running ticker. -/
theorem C7_counterexample :
    (Handlers.CreateSchedule demoState "s" 5 [1] ⟨3⟩).2 = Handlers.Outcome.ok ⟨1, "s", 5, ⟨3⟩, [1]⟩ ∧
    (Handlers.removeEndpointsFromSchedules
      (Handlers.CreateSchedule demoState "s" 5 [1] ⟨3⟩).1 [1]).schedules
        = [⟨1, "s", 5, ⟨3⟩, []⟩] ∧
    mapGet (Handlers.removeEndpointsFromSchedules
      (Handlers.CreateSchedule demoState "s" 5 [1] ⟨3⟩).1 [1]).runningSchedules 1 = some 0 ∧
    (Handlers.removeEndpointsFromSchedules
      (Handlers.CreateSchedule demoState "s" 5 [1] ⟨3⟩).1 [1]).tickers
        = [⟨5000000000, ⟨1, "s", 5, ⟨3⟩, [1]⟩, false⟩] := by
  refine ⟨by decide, by decide, by decide, by decide⟩

/-- C7 (amended). For every schedule created by `CreateSchedule` with exactly one member
E, after `removeEndpointsFromSchedules` is called with E's id the schedule is still the
last entry of `schedules`, with an empty member list and its ID, Name, Interval and
CreatedAt unchanged; `runningSchedules` is unchanged and still maps the schedule's ID to
the ticker started at creation, which has not been stopped. -/
theorem C7_empty_schedule_stays (s s1 : Handlers.State) (name : String) (interval : Int)
    (e : Int) (now : Time) (sch : Schedule)
    (h : Handlers.CreateSchedule s name interval [e] now = (s1, Handlers.Outcome.ok sch)) :
    sch.Endpoints = [e] ∧
    (Handlers.removeEndpointsFromSchedules s1 [e]).schedules =
      s.schedules.map (Handlers.removeFromSchedule [e]) ++ [{ sch with Endpoints := [] }] ∧
    (Handlers.removeEndpointsFromSchedules s1 [e]).runningSchedules = s1.runningSchedules ∧
    mapGet (Handlers.removeEndpointsFromSchedules s1 [e]).runningSchedules sch.ID
      = some s.tickers.length ∧
    (Handlers.removeEndpointsFromSchedules s1 [e]).tickers[s.tickers.length]?
      = some ⟨tickerPeriod interval, sch, false⟩ := by
  obtain ⟨-, -, hsch, hs1⟩ := Handlers.CreateSchedule_ok s s1 name interval [e] now sch h
  subst hs1
  refine ⟨by rw [hsch], ?_, rfl, ?_, ?_⟩
  · subst hsch
    simp [Handlers.removeEndpointsFromSchedules, Handlers.removeFromSchedule_single]
  · simp [Handlers.removeEndpointsFromSchedules, mapGet_mapSet_same]
  · simp [Handlers.removeEndpointsFromSchedules]

/-- C7 (witness). The amended statement at the schedule created in `demoState` for
endpoint 1. -/
theorem C7_empty_schedule_stays_witness :
    (Handlers.removeEndpointsFromSchedules
      (Handlers.CreateSchedule demoState "s" 5 [1] ⟨3⟩).1 [1]).schedules =
      demoState.schedules.map (Handlers.removeFromSchedule [1]) ++
        [{ (⟨1, "s", 5, ⟨3⟩, [1]⟩ : Schedule) with Endpoints := [] }] :=
  (C7_empty_schedule_stays demoState (Handlers.CreateSchedule demoState "s" 5 [1] ⟨3⟩).1
    "s" 5 1 ⟨3⟩ ⟨1, "s", 5, ⟨3⟩, [1]⟩ (by decide)).2.1

/-- C8 (counterexample). From the empty schedule list, two `CreateSchedule` calls with
interval 5 (and no member) give two schedules whose Interval is 5. -/
theorem C8_counterexample :
    (Handlers.run (Handlers.initState [])
      [Handlers.Op.create "a" 5 [] ⟨1⟩, Handlers.Op.create "b" 5 [] ⟨2⟩]).schedules
        = [⟨1, "a", 5, ⟨1⟩, []⟩, ⟨2, "b", 5, ⟨2⟩, []⟩] ∧
    ¬ ((Handlers.run (Handlers.initState [])
      [Handlers.Op.create "a" 5 [] ⟨1⟩, Handlers.Op.create "b" 5 [] ⟨2⟩]).schedules.map
        (fun sch => sch.Interval)).Nodup := by
  refine ⟨by decide, by decide⟩

/-- C8 (amended). In every state reachable from the empty schedule list by any sequence
of `CreateSchedule`, `UpdateSchedule` and `DeleteSchedule` calls, a `CreateSchedule` call
whose ids are all registered appends one schedule with the requested Interval and leaves
the schedules already there as they were, also when one of them has that Interval: the
number of schedules with that Interval grows by one. -/
theorem C8_create_ignores_interval (endpoints : List Endpoint) (ops : List Handlers.Op)
    (name : String) (interval : Int) (endpointIDs : List Int) (now : Time)
    (hv : Handlers.validateEndpointIDs endpoints endpointIDs = true) :
    (Handlers.CreateSchedule (Handlers.run (Handlers.initState endpoints) ops)
        name interval endpointIDs now).1.schedules =
      (Handlers.run (Handlers.initState endpoints) ops).schedules ++
        [⟨Int.ofNat (Handlers.run (Handlers.initState endpoints) ops).schedules.length + 1,
          name, interval, now, endpointIDs⟩] ∧
    ((Handlers.CreateSchedule (Handlers.run (Handlers.initState endpoints) ops)
        name interval endpointIDs now).1.schedules.filter
          (fun sch => decide (sch.Interval = interval))).length =
      ((Handlers.run (Handlers.initState endpoints) ops).schedules.filter
          (fun sch => decide (sch.Interval = interval))).length + 1 := by
  have hv2 : Handlers.validateEndpointIDs
      (Handlers.run (Handlers.initState endpoints) ops).endpoints endpointIDs = true := by
    rw [Handlers.run_endpoints]
    exact hv
  have hs := Handlers.CreateSchedule_schedules _ name interval endpointIDs now hv2
  refine ⟨hs, ?_⟩
  rw [hs]
  simp [List.filter_append]

/-- C8 (witness). The amended statement after one schedule with interval 5 was created. -/
theorem C8_create_ignores_interval_witness :
    (Handlers.CreateSchedule (Handlers.run (Handlers.initState [])
        [Handlers.Op.create "a" 5 [] ⟨1⟩]) "b" 5 [] ⟨2⟩).1.schedules =
      (Handlers.run (Handlers.initState []) [Handlers.Op.create "a" 5 [] ⟨1⟩]).schedules ++
        [⟨Int.ofNat (Handlers.run (Handlers.initState [])
            [Handlers.Op.create "a" 5 [] ⟨1⟩]).schedules.length + 1, "b", 5, ⟨2⟩, []⟩] :=
  (C8_create_ignores_interval [] [Handlers.Op.create "a" 5 [] ⟨1⟩] "b" 5 [] ⟨2⟩ (by decide)).1

/-- C9. For every list of loaded endpoints the grouping step of `startHealthMonitoring`
stores under each key the endpoints of the list with that Interval, in order; every
endpoint is in the group keyed by its own Interval and in no other; the keys are pairwise
distinct and their number is the number of distinct Interval values of the list. The
Interval of a loaded endpoint is a positive number of seconds (one of the allowed
intervals), which gives a positive ticker duration; when every schedule upsert succeeds,
the loop over the groups, in whatever order the map yields them, then creates as many
tickers as there are distinct Interval values and stores as many in `tickers`. -/
theorem C9_interval_groups (dbEndpoints : List DbEndpoint) :
    (∀ k g, (k, g) ∈ Main.groupByInterval dbEndpoints →
      g = dbEndpoints.filter (fun e => decide (e.Interval = k))) ∧
    (∀ e, e ∈ dbEndpoints → ∃ g, (e.Interval, g) ∈ Main.groupByInterval dbEndpoints ∧ e ∈ g) ∧
    (∀ e k g, e ∈ dbEndpoints → (k, g) ∈ Main.groupByInterval dbEndpoints →
      (e ∈ g ↔ k = e.Interval)) ∧
    (mapKeys (Main.groupByInterval dbEndpoints)).Nodup ∧
    (Main.groupByInterval dbEndpoints).length
      = (dbEndpoints.map (fun e => e.Interval)).toFinset.card ∧
    (∀ (firstOrCreate : DbSchedule → Option DbSchedule) (now : Time)
        (order : List (Int × List DbEndpoint)),
      order.Perm (Main.groupByInterval dbEndpoints) →
      (∀ sch, (firstOrCreate sch).isSome = true) →
      (∀ e, e ∈ dbEndpoints → 0 < tickerPeriod e.Interval) →
      ∃ r, Main.scheduleLoop firstOrCreate now order ⟨[], [], []⟩ = some r ∧
        r.created.length = (dbEndpoints.map (fun e => e.Interval)).toFinset.card ∧
        r.tickers.length = (dbEndpoints.map (fun e => e.Interval)).toFinset.card ∧
        r.failedUpserts = []) ∧
    (∀ interval : Int, 0 < interval → interval ≤ 9223372036 → 0 < tickerPeriod interval) ∧
    (∀ interval, interval ∈ allowedIntervals → 0 < tickerPeriod interval) := by
  refine ⟨Main.mem_groupByInterval dbEndpoints, ?_, ?_, Main.nodup_mapKeys_groupByInterval _,
    Main.length_groupByInterval _, ?_, tickerPeriod_pos, ?_⟩
  · intro e he
    have hget := Main.mapGet_groupByInterval dbEndpoints e.Interval
    have hmem : e ∈ dbEndpoints.filter (fun x => decide (x.Interval = e.Interval)) := by
      simp [List.mem_filter, he]
    have hne : dbEndpoints.filter (fun x => decide (x.Interval = e.Interval)) ≠ [] :=
      List.ne_nil_of_mem hmem
    simp only [hne, if_false] at hget
    exact ⟨_, mem_of_mapGet _ _ _ hget, hmem⟩
  · intro e k g he hkg
    rw [Main.mem_groupByInterval dbEndpoints k g hkg]
    simp only [List.mem_filter, he, true_and, decide_eq_true_eq]
    exact eq_comm
  · intro firstOrCreate now order hperm hup hpos
    have hkeys : (mapKeys order).Perm (mapKeys (Main.groupByInterval dbEndpoints)) :=
      hperm.map Prod.fst
    have hnd : (mapKeys order).Nodup :=
      hkeys.nodup_iff.2 (Main.nodup_mapKeys_groupByInterval _)
    have hpos2 : ∀ p, p ∈ order → 0 < tickerPeriod p.1 := by
      intro p hp
      have hk : p.1 ∈ mapKeys (Main.groupByInterval dbEndpoints) :=
        List.mem_map.2 ⟨p, hperm.mem_iff.1 hp, rfl⟩
      obtain ⟨e, he, hek⟩ := List.mem_map.1 ((Main.mem_mapKeys_groupByInterval _ _).1 hk)
      rw [← hek]
      exact hpos e he
    obtain ⟨r, hr, hc, ht, hf⟩ := Main.scheduleLoop_all firstOrCreate now hup order ⟨[], [], []⟩
      hpos2 hnd (by simp [mapKeys])
    refine ⟨r, hr, ?_, ?_, hf⟩
    · rw [hc, ← Main.length_groupByInterval, ← hperm.length_eq]
      simp
    · rw [ht, ← Main.length_groupByInterval, ← hperm.length_eq]
      simp
  · intro interval hmem
    simp only [allowedIntervals, List.mem_cons, List.mem_singleton, List.not_mem_nil,
      or_false] at hmem
    apply tickerPeriod_pos
    · omega
    · omega

/-- C9 (witness). The statement at three loaded endpoints with the allowed intervals 5, 60
and 5: two groups, two tickers. -/
theorem C9_interval_groups_witness :
    ∃ r, Main.scheduleLoop upsertOk ⟨0⟩ (Main.groupByInterval loadedEndpoints) ⟨[], [], []⟩
        = some r ∧
      r.created.length = (loadedEndpoints.map (fun e => e.Interval)).toFinset.card ∧
      r.tickers.length = (loadedEndpoints.map (fun e => e.Interval)).toFinset.card ∧
      r.failedUpserts = [] :=
  (C9_interval_groups loadedEndpoints).2.2.2.2.2.1 upsertOk ⟨0⟩
    (Main.groupByInterval loadedEndpoints) (List.Perm.refl _) (fun _ => rfl)
    (fun e he => (C9_interval_groups loadedEndpoints).2.2.2.2.2.2.2 e.Interval (by
      simp only [loadedEndpoints, List.mem_cons, List.mem_singleton, List.not_mem_nil,
        or_false] at he
      rcases he with h | h | h <;> subst h <;> decide))

/-- C10. `CreateSchedule` and `UpdateSchedule` return `ErrEndpointNotFound` if and only if
some id of `endpointIDs` is not the ID of a registry entry, and then the whole package
state (with `schedules`, `runningSchedules` and the tickers) is as it was, for
`UpdateSchedule` whatever the schedule id. -/
theorem C10_unknown_endpoint_rejected (s : Handlers.State) (id : Int) (name : String)
    (interval : Int) (endpointIDs : List Int) (now : Time) :
    ((Handlers.CreateSchedule s name interval endpointIDs now).2
        = Handlers.Outcome.error Handlers.Err.ErrEndpointNotFound ↔
      Handlers.someUnregistered s.endpoints endpointIDs) ∧
    ((Handlers.UpdateSchedule s id name interval endpointIDs).2
        = Handlers.Outcome.error Handlers.Err.ErrEndpointNotFound ↔
      Handlers.someUnregistered s.endpoints endpointIDs) ∧
    (Handlers.someUnregistered s.endpoints endpointIDs →
      (Handlers.CreateSchedule s name interval endpointIDs now).1 = s ∧
      (Handlers.UpdateSchedule s id name interval endpointIDs).1 = s) := by
  rw [← Handlers.validateEndpointIDs_eq_false_iff]
  by_cases hv : Handlers.validateEndpointIDs s.endpoints endpointIDs = true
  · refine ⟨?_, ?_, ?_⟩
    · simp only [Handlers.CreateSchedule, hv, if_true]
      split <;> simp
    · simp only [Handlers.UpdateSchedule, hv, if_true]
      split
      · split
        · split <;> simp
        · simp
      · simp
    · intro h
      rw [hv] at h
      cases h
  · have hf : Handlers.validateEndpointIDs s.endpoints endpointIDs = false := by
      simpa using hv
    simp [Handlers.CreateSchedule, Handlers.UpdateSchedule, hf]

/-- C10 (witness). In `demoState`, whose registry holds the ids 1 and 2, a schedule
naming id 9 is rejected by both functions and the state is unchanged. -/
theorem C10_unknown_endpoint_rejected_witness :
    (Handlers.CreateSchedule demoState "s" 5 [1, 9] ⟨3⟩).1 = demoState ∧
    (Handlers.UpdateSchedule demoState 1 "s" 5 [1, 9]).1 = demoState :=
  (C10_unknown_endpoint_rejected demoState 1 "s" 5 [1, 9] ⟨3⟩).2.2
    ⟨9, by decide, by decide⟩

/-- C11 (failing input). With registered ids and interval 0, `CreateSchedule` returns no
error: it appends the schedule and `time.NewTicker` panics, leaving the schedule in
`schedules` without a ticker. With interval -5, `UpdateSchedule` of an existing schedule
stops its ticker, removes it from `runningSchedules`, assigns the new fields and panics
the same way. -/
theorem C11_nonpositive_interval_not_rejected :
    Handlers.CreateSchedule demoState "s" 0 [1] ⟨3⟩ =
      ({ demoState with schedules := [⟨1, "s", 0, ⟨3⟩, [1]⟩] }, Handlers.Outcome.panicked) ∧
    (Handlers.CreateSchedule demoState "s" 5 [1] ⟨3⟩).1 =
      { demoState with
        schedules := [⟨1, "s", 5, ⟨3⟩, [1]⟩],
        runningSchedules := [(1, 0)],
        tickers := [⟨5000000000, ⟨1, "s", 5, ⟨3⟩, [1]⟩, false⟩] } ∧
    Handlers.UpdateSchedule (Handlers.CreateSchedule demoState "s" 5 [1] ⟨3⟩).1 1 "t" (-5) [2] =
      ({ demoState with
          schedules := [⟨1, "t", -5, ⟨3⟩, [2]⟩],
          runningSchedules := [],
          tickers := [⟨5000000000, ⟨1, "s", 5, ⟨3⟩, [1]⟩, true⟩] },
        Handlers.Outcome.panicked) := by
  refine ⟨by decide, by decide, by decide⟩

/-- C12. `GetSchedule`, `DeleteSchedule` and, when all its endpoint ids are registered,
`UpdateSchedule` return `ErrScheduleNotFound` if and only if no schedule in `schedules`
has the ID; `DeleteSchedule` and `UpdateSchedule` then leave the whole package state
(with `schedules` and `runningSchedules`) as it was, and `GetSchedule` never writes. -/
theorem C12_schedule_not_found (s : Handlers.State) (id : Int) (name : String)
    (interval : Int) (endpointIDs : List Int) :
    (Handlers.GetSchedule s id = Handlers.Outcome.error Handlers.Err.ErrScheduleNotFound ↔
      ∀ sch, sch ∈ s.schedules → sch.ID ≠ id) ∧
    ((Handlers.DeleteSchedule s id).2 = some Handlers.Err.ErrScheduleNotFound ↔
      ∀ sch, sch ∈ s.schedules → sch.ID ≠ id) ∧
    (Handlers.validateEndpointIDs s.endpoints endpointIDs = true →
      ((Handlers.UpdateSchedule s id name interval endpointIDs).2
          = Handlers.Outcome.error Handlers.Err.ErrScheduleNotFound ↔
        ∀ sch, sch ∈ s.schedules → sch.ID ≠ id)) ∧
    ((∀ sch, sch ∈ s.schedules → sch.ID ≠ id) →
      (Handlers.DeleteSchedule s id).1 = s ∧
      (Handlers.validateEndpointIDs s.endpoints endpointIDs = true →
        (Handlers.UpdateSchedule s id name interval endpointIDs).1 = s)) := by
  refine ⟨?_, ?_, ?_, ?_⟩
  · rw [← Handlers.find?_schedule_eq_none_iff]
    unfold Handlers.GetSchedule
    split <;> simp_all
  · rw [← Handlers.findScheduleIdx_eq_none_iff]
    unfold Handlers.DeleteSchedule
    split <;> simp_all
  · intro hv
    rw [← Handlers.findScheduleIdx_eq_none_iff]
    cases hi : Handlers.findScheduleIdx id s.schedules with
    | none => simp [Handlers.UpdateSchedule, hv, hi]
    | some i =>
      obtain ⟨old, -, -, -, hpanic, hok⟩ :=
        Handlers.UpdateSchedule_found s id name interval endpointIDs i hv hi
      by_cases hp : tickerPeriod interval ≤ 0
      · rw [hpanic hp]
        simp
      · rw [hok (by omega)]
        simp
  · intro hnone
    have hi := (Handlers.findScheduleIdx_eq_none_iff id s.schedules).2 hnone
    refine ⟨by simp [Handlers.DeleteSchedule, hi], ?_⟩
    intro hv
    simp [Handlers.UpdateSchedule, hv, hi]

/-- C12 (witness). In `demoState`, which has no schedule, schedule 7 is not found by
`DeleteSchedule` and `UpdateSchedule`, and the state is unchanged. -/
theorem C12_schedule_not_found_witness :
    (Handlers.DeleteSchedule demoState 7).1 = demoState ∧
    (Handlers.UpdateSchedule demoState 7 "s" 5 [1]).1 = demoState ∧
    (Handlers.UpdateSchedule demoState 7 "s" 5 [1]).2
      = Handlers.Outcome.error Handlers.Err.ErrScheduleNotFound :=
  ⟨((C12_schedule_not_found demoState 7 "s" 5 [1]).2.2.2 (by decide)).1,
   ((C12_schedule_not_found demoState 7 "s" 5 [1]).2.2.2 (by decide)).2 (by decide),
   ((C12_schedule_not_found demoState 7 "s" 5 [1]).2.2.1 (by decide)).2 (by decide)⟩

/-- C13 (counterexample). A schedule whose member list holds id 1 twice, over a registry
with the ids 1 and 2: a tick dispatches two probes of endpoint 1, not one. -/
theorem C13_counterexample :
    Handlers.tickProbes demoState.endpoints ⟨1, "s", 5, ⟨0⟩, [1, 1]⟩
      = [demoEndpoint, demoEndpoint] ∧
    ((Handlers.tickProbes demoState.endpoints ⟨1, "s", 5, ⟨0⟩, [1, 1]⟩).map
      (fun e => e.ID)).count 1 = 2 := by
  refine ⟨by decide, by decide⟩

/-- C13 (amended). For every schedule member list and every registry, a tick of the
goroutine that `startSchedule` started for the schedule (it holds the schedule value
`startSchedule` was called with) dispatches one probe per occurrence of a registered id
in the member list, in list order, and none for an unregistered id or for an endpoint
that is not a member. Every probe is of the first registry entry that carries the id. The
number of probes for an id is the number of its occurrences in the member list, so a list
without repetition gives exactly one probe for each registered member. -/
theorem C13_tick_probes (endpoints : List Endpoint) (schedule : Schedule) :
    (Handlers.tickProbes endpoints schedule).map (fun e => e.ID) =
      schedule.Endpoints.filter (Handlers.isRegistered endpoints) ∧
    (∀ e, e ∈ Handlers.tickProbes endpoints schedule →
      e ∈ endpoints ∧ e.ID ∈ schedule.Endpoints) ∧
    (∀ e, e ∈ Handlers.tickProbes endpoints schedule →
      ∃ i : Nat, endpoints[i]? = some e ∧
        ∀ (j : Nat) (other : Endpoint), j < i → endpoints[j]? = some other → other.ID ≠ e.ID) ∧
    (∀ id, ((Handlers.tickProbes endpoints schedule).map (fun e => e.ID)).count id =
      if Handlers.isRegistered endpoints id = true then schedule.Endpoints.count id else 0) ∧
    (schedule.Endpoints.Nodup →
      ((Handlers.tickProbes endpoints schedule).map (fun e => e.ID)).Nodup) ∧
    (∀ s s1 : Handlers.State, Handlers.startSchedule s schedule = some s1 →
      (s1.tickers[s.tickers.length]?).map
          (fun ticker => (ticker.stopped, Handlers.tickProbes endpoints ticker.schedule))
        = some (false, Handlers.tickProbes endpoints schedule) ∧
      mapGet s1.runningSchedules schedule.ID = some s.tickers.length) := by
  have hids := Handlers.tickProbes_ids endpoints schedule
  refine ⟨hids, Handlers.mem_tickProbes endpoints schedule,
    Handlers.tickProbes_first endpoints schedule, ?_, ?_, ?_⟩
  · intro id
    rw [hids]
    by_cases hr : Handlers.isRegistered endpoints id = true
    · simp only [hr, if_true]
      exact List.count_filter hr
    · simp only [hr, if_false]
      apply List.count_eq_zero_of_not_mem
      intro hmem
      exact hr (List.mem_filter.1 hmem).2
  · intro hnd
    rw [hids]
    exact hnd.filter _
  · intro s s1 hstart
    obtain ⟨hcap, hrun⟩ := Handlers.startSchedule_captures s s1 schedule hstart
    exact ⟨by rw [hcap]; rfl, hrun⟩

/-- C13 (witness). The amended statement at a member list without repetition (ids 1, 9
and 2 over the registry with ids 1 and 2), and at a registry with two entries of ID 1,
where the probe is of the first of them. -/
theorem C13_tick_probes_witness :
    ((Handlers.tickProbes demoState.endpoints ⟨1, "s", 5, ⟨0⟩, [1, 9, 2]⟩).map
      (fun e => e.ID)).Nodup ∧
    (∃ i : Nat, twinRegistry[i]? = some ⟨1, "http://first", 5, ⟨0⟩, "unknown", ⟨0⟩⟩ ∧
      ∀ (j : Nat) (other : Endpoint), j < i → twinRegistry[j]? = some other →
        other.ID ≠ (⟨1, "http://first", 5, ⟨0⟩, "unknown", ⟨0⟩⟩ : Endpoint).ID) :=
  ⟨(C13_tick_probes demoState.endpoints ⟨1, "s", 5, ⟨0⟩, [1, 9, 2]⟩).2.2.2.2.1 (by decide),
   (C13_tick_probes twinRegistry ⟨1, "s", 5, ⟨0⟩, [1]⟩).2.2.1
      ⟨1, "http://first", 5, ⟨0⟩, "unknown", ⟨0⟩⟩ (by decide)⟩

/-- C16. For every sequence of results of the underlying update,
`database.UpdateEndpointStatus` makes at least 1 and at most 3 attempts, stops at the
first attempt that succeeds, returns nil if and only if one of the attempts it made
succeeded, otherwise returns the error of the third attempt. It sleeps one second after
each failed attempt except the third: as often as attempts failed before a success, and
twice when all three fail. -/
theorem C16_update_status_retry (db : Nat → Option String) :
    1 ≤ (Database.UpdateEndpointStatus db).attempts ∧
    (Database.UpdateEndpointStatus db).attempts ≤ 3 ∧
    (∀ i, i < 3 → (∀ j, j < i → db j ≠ none) → db i = none →
      (Database.UpdateEndpointStatus db).attempts = i + 1 ∧
      (Database.UpdateEndpointStatus db).err = none ∧
      (Database.UpdateEndpointStatus db).sleeps = i) ∧
    ((∀ j, j < 3 → db j ≠ none) →
      (Database.UpdateEndpointStatus db).attempts = 3 ∧
      (Database.UpdateEndpointStatus db).err = db 2 ∧
      (Database.UpdateEndpointStatus db).sleeps = 2) ∧
    ((Database.UpdateEndpointStatus db).err = none ↔
      ∃ i, i < (Database.UpdateEndpointStatus db).attempts ∧ db i = none) := by
  cases h0 : db 0 with
  | none =>
    rw [Database.UpdateEndpointStatus_first db h0]
    refine ⟨by simp, by simp, ?_, ?_, ?_⟩
    · intro i hi hbefore hnone
      have : i = 0 := by
        by_contra hne
        exact hbefore 0 (by omega) h0
      subst this
      simp
    · intro hall
      exact absurd h0 (hall 0 (by omega))
    · simp only [true_iff]
      exact ⟨0, by simp, h0⟩
  | some e0 =>
    cases h1 : db 1 with
    | none =>
      rw [Database.UpdateEndpointStatus_second db e0 h0 h1]
      refine ⟨by simp, by simp, ?_, ?_, ?_⟩
      · intro i hi hbefore hnone
        have : i = 1 := by
          by_contra hne
          have hcases : i = 0 ∨ i = 2 := by omega
          rcases hcases with h | h
          · subst h
            rw [h0] at hnone
            cases hnone
          · subst h
            exact hbefore 1 (by omega) h1
        subst this
        simp
      · intro hall
        exact absurd h1 (hall 1 (by omega))
      · simp only [true_iff]
        exact ⟨1, by simp, h1⟩
    | some e1 =>
      cases h2 : db 2 with
      | none =>
        rw [Database.UpdateEndpointStatus_third db e0 e1 h0 h1 h2]
        refine ⟨by simp, by simp, ?_, ?_, ?_⟩
        · intro i hi hbefore hnone
          have : i = 2 := by
            by_contra hne
            have hcases : i = 0 ∨ i = 1 := by omega
            rcases hcases with h | h
            · subst h
              rw [h0] at hnone
              cases hnone
            · subst h
              rw [h1] at hnone
              cases hnone
          subst this
          simp
        · intro hall
          exact absurd h2 (hall 2 (by omega))
        · simp only [true_iff]
          exact ⟨2, by simp, h2⟩
      | some e2 =>
        rw [Database.UpdateEndpointStatus_failed db e0 e1 e2 h0 h1 h2]
        refine ⟨by simp, by simp, ?_, ?_, ?_⟩
        · intro i hi _ hnone
          have hcases : i = 0 ∨ i = 1 ∨ i = 2 := by omega
          rcases hcases with h | h | h <;> subst h
          · rw [h0] at hnone
            cases hnone
          · rw [h1] at hnone
            cases hnone
          · rw [h2] at hnone
            cases hnone
        · intro _
          simp
        · constructor
          · intro h
            cases h
          rintro ⟨i, hi, hnone⟩
          simp only at hi
          have hcases : i = 0 ∨ i = 1 ∨ i = 2 := by omega
          rcases hcases with h | h | h <;> subst h
          · rw [h0] at hnone
            cases hnone
          · rw [h1] at hnone
            cases hnone
          · rw [h2] at hnone
            cases hnone

/-- C16 (witness). The statement at a database that fails twice and then succeeds (three
attempts, nil, two sleeps) and at one that always fails (the third error is returned). -/
theorem C16_update_status_retry_witness :
    ((Database.UpdateEndpointStatus dbThirdTime).attempts = 2 + 1 ∧
      (Database.UpdateEndpointStatus dbThirdTime).err = none ∧
      (Database.UpdateEndpointStatus dbThirdTime).sleeps = 2) ∧
    ((Database.UpdateEndpointStatus dbDown).attempts = 3 ∧
      (Database.UpdateEndpointStatus dbDown).err = dbDown 2 ∧
      (Database.UpdateEndpointStatus dbDown).sleeps = 2) :=
  ⟨(C16_update_status_retry dbThirdTime).2.2.1 2 (by decide)
      (fun j hj => by
        have h : dbThirdTime j = some "connection reset" := by simp [dbThirdTime, hj]
        rw [h]
        simp)
      rfl,
   (C16_update_status_retry dbDown).2.2.2.1 (fun j _ => by simp [dbDown])⟩

/-- C18. After `removeEndpointsFromSchedules(ids)` the schedule list is the previous one
with, in each schedule, every occurrence of every id of `ids` removed from `Endpoints`
and the remaining ids in their order; the number of schedules and each schedule's ID,
Name, Interval and CreatedAt are unchanged, a schedule that contained none of the ids is
unchanged, and so are the registry, `runningSchedules` and the tickers. -/
theorem C18_remove_is_filter (s : Handlers.State) (ids : List Int) :
    (Handlers.removeEndpointsFromSchedules s ids).schedules =
      s.schedules.map (fun sch =>
        ⟨sch.ID, sch.Name, sch.Interval, sch.CreatedAt,
          sch.Endpoints.filter (fun id => decide (id ∉ ids))⟩) ∧
    (Handlers.removeEndpointsFromSchedules s ids).schedules.length = s.schedules.length ∧
    (∀ sch, sch ∈ s.schedules → (∀ id, id ∈ sch.Endpoints → id ∉ ids) →
      Handlers.removeFromSchedule ids sch = sch) ∧
    (Handlers.removeEndpointsFromSchedules s ids).endpoints = s.endpoints ∧
    (Handlers.removeEndpointsFromSchedules s ids).runningSchedules = s.runningSchedules ∧
    (Handlers.removeEndpointsFromSchedules s ids).tickers = s.tickers := by
  refine ⟨?_, by simp [Handlers.removeEndpointsFromSchedules], ?_, rfl, rfl, rfl⟩
  · simp only [Handlers.removeEndpointsFromSchedules]
    apply List.map_congr_left
    intro sch _
    rw [Handlers.removeFromSchedule_eq]
  · intro sch _ hnone
    rw [Handlers.removeFromSchedule_eq]
    have hself : sch.Endpoints.filter (fun id => decide (id ∉ ids)) = sch.Endpoints := by
      rw [List.filter_eq_self]
      intro x hx
      simpa using hnone x hx
    rw [hself]

/-- C18 (witness). The statement at a schedule with the ids 1, 2, 3 when id 5 (which it
does not hold) is removed. -/
theorem C18_remove_is_filter_witness :
    Handlers.removeFromSchedule [5] ⟨1, "every 5s", 5, ⟨0⟩, [1, 2, 3]⟩
      = ⟨1, "every 5s", 5, ⟨0⟩, [1, 2, 3]⟩ :=
  (C18_remove_is_filter sweepState [5]).2.2.1 ⟨1, "every 5s", 5, ⟨0⟩, [1, 2, 3]⟩
    (by decide) (by decide)

/-- C14 (counterexample). The registry holds `expiredA`, expired at instant 100, and there
is no schedule, so every member of every schedule is registered and not expired at 100;
`CreateSchedule` with id 1, called at instant 100, succeeds, and then schedule 1 has the
member 1, an endpoint expired at 100. -/
theorem C14_counterexample :
    Handlers.membersLive ⟨100⟩ expiredOnlyState ∧
    (Handlers.CreateSchedule expiredOnlyState "s" 5 [1] ⟨100⟩).2
      = Handlers.Outcome.ok ⟨1, "s", 5, ⟨100⟩, [1]⟩ ∧
    Handlers.isExpired ⟨100⟩ expiredA = true ∧
    ¬ Handlers.membersLive ⟨100⟩ (Handlers.CreateSchedule expiredOnlyState "s" 5 [1] ⟨100⟩).1 := by
  refine ⟨by decide, by decide, by decide, by decide⟩

/-- C14 (amended). In every state reached after a `CreateSchedule`, `UpdateSchedule` or
`DeleteSchedule` call, or after a `CheckExpiredEndpoints` call that completes, made from a
state where it holds, every id in every schedule's `Endpoints` list is the ID of an
endpoint that is in the registry. -/
theorem C14_members_registered (s : Handlers.State) (h : Handlers.membersRegistered s) :
    (∀ op, Handlers.membersRegistered (Handlers.applyOp s op)) ∧
    (∀ now dbDelete r, Handlers.CheckExpiredEndpoints s now dbDelete = some r →
      Handlers.membersRegistered r) :=
  ⟨fun op => Handlers.applyOp_membersRegistered s op h,
   fun now dbDelete r hr => Handlers.CheckExpiredEndpoints_membersRegistered s r now dbDelete h hr⟩

/-- C14 (witness). The amended statement at `sweepState`, for an `UpdateSchedule` call and
for the sweep at instant 100. -/
theorem C14_members_registered_witness :
    Handlers.membersRegistered
      (Handlers.applyOp sweepState (Handlers.Op.update 1 "t" 60 [3])) ∧
    Handlers.membersRegistered
      { sweepState with endpoints := [expiredB, keptC],
                        schedules := [⟨1, "every 5s", 5, ⟨0⟩, [2, 3]⟩] } :=
  ⟨(C14_members_registered sweepState (by decide)).1 (Handlers.Op.update 1 "t" 60 [3]),
   (C14_members_registered sweepState (by decide)).2 ⟨100⟩ deleteOk _ (by decide)⟩

/-- C15 (counterexample). The registry holds the single endpoint `expiresAt100`, member
of schedule 1, and every durable delete fails: the sweep at instant 101 still removes
the endpoint from the registry and its id from the schedule. -/
theorem C15_counterexample :
    Handlers.isExpired ⟨101⟩ expiresAt100 = true ∧ deleteFails expiresAt100.ID = false ∧
    Handlers.CheckExpiredEndpoints singleState ⟨101⟩ deleteFails =
      some { singleState with endpoints := [], schedules := [⟨1, "every 5s", 5, ⟨0⟩, []⟩] } := by
  refine ⟨by decide, by decide, by decide⟩

/-- C15 (amended). During an expiry sweep the in-memory state does not depend on what
`database.DeleteEndpoint` returns: the sweep ends the same way, with the same registry
and schedules, whatever the results of the durable deletes. When the sweep completes,
the endpoints it called `database.DeleteEndpoint` for are expired endpoints that it took
out of the registry and whose ids it took out of every schedule, whether the delete
succeeded or returned an error. In particular an expired endpoint that is the single
entry of the registry is removed from the registry and from every schedule also when its
durable delete returns an error. -/
theorem C15_sweep_ignores_delete_result (s : Handlers.State) (now : Time) :
    (∀ db1 db2 : Int → Bool,
      Handlers.CheckExpiredEndpoints s now db1 = Handlers.CheckExpiredEndpoints s now db2) ∧
    (∀ (dbDelete : Int → Bool) (r : Handlers.State),
      Handlers.CheckExpiredEndpoints s now dbDelete = some r →
      ∃ removed : List Endpoint,
        (∀ e, e ∈ removed → Handlers.isExpired now e = true) ∧
        s.endpoints.Perm (r.endpoints ++ removed) ∧
        Handlers.sweepDeletes s now dbDelete = removed.map (fun e => (e.ID, dbDelete e.ID)) ∧
        r.schedules =
          s.schedules.map (Handlers.removeFromSchedule (removed.map (fun e => e.ID))) ∧
        (∀ e, e ∈ removed → ∀ sch, sch ∈ r.schedules → e.ID ∉ sch.Endpoints)) ∧
    (∀ (endpoint : Endpoint) (dbDelete : Int → Bool), s.endpoints = [endpoint] →
      Handlers.isExpired now endpoint = true → dbDelete endpoint.ID = false →
      Handlers.CheckExpiredEndpoints s now dbDelete =
        some (Handlers.removeEndpointsFromSchedules { s with endpoints := [] } [endpoint.ID])) := by
  refine ⟨?_, ?_, ?_⟩
  · intro db1 db2
    have hloop := Handlers.sweepLoop_db now db1 db2 s.endpoints.length 0
      ⟨s.endpoints, s.endpoints.length, [], []⟩ ⟨s.endpoints, s.endpoints.length, [], []⟩
      rfl rfl rfl
    unfold Handlers.CheckExpiredEndpoints
    cases h1 : Handlers.sweepLoop now db1 s.endpoints.length 0
        ⟨s.endpoints, s.endpoints.length, [], []⟩ with
    | none =>
      cases h2 : Handlers.sweepLoop now db2 s.endpoints.length 0
          ⟨s.endpoints, s.endpoints.length, [], []⟩ with
      | none => rfl
      | some st2 => simp [h1, h2] at hloop
    | some st1 =>
      cases h2 : Handlers.sweepLoop now db2 s.endpoints.length 0
          ⟨s.endpoints, s.endpoints.length, [], []⟩ with
      | none => simp [h1, h2] at hloop
      | some st2 =>
        simp only [h1, h2, Option.map_some', Option.some.injEq, Prod.mk.injEq] at hloop
        obtain ⟨hc, hl, he⟩ := hloop
        simp only [hc, hl, he]
  · intro dbDelete r hr
    exact Handlers.CheckExpiredEndpoints_removed s r now dbDelete hr
  · intro endpoint dbDelete hs hexp _
    simp [Handlers.CheckExpiredEndpoints, Handlers.sweepLoop, hs, hexp]

/-- C15 (witness). The amended statement at `sweepState`, swept at instant 100 with every
durable delete failing (endpoint 1 is removed from the registry and the schedule), and at
`singleState`, swept at instant 101 with every durable delete failing. -/
theorem C15_sweep_ignores_delete_result_witness :
    (∃ removed : List Endpoint,
      (∀ e, e ∈ removed → Handlers.isExpired ⟨100⟩ e = true) ∧
      sweepState.endpoints.Perm ([expiredB, keptC] ++ removed) ∧
      Handlers.sweepDeletes sweepState ⟨100⟩ deleteFails
        = removed.map (fun e => (e.ID, deleteFails e.ID)) ∧
      [(⟨1, "every 5s", 5, ⟨0⟩, [2, 3]⟩ : Schedule)] =
        sweepState.schedules.map (Handlers.removeFromSchedule (removed.map (fun e => e.ID))) ∧
      (∀ e, e ∈ removed → ∀ sch, sch ∈ [(⟨1, "every 5s", 5, ⟨0⟩, [2, 3]⟩ : Schedule)] →
        e.ID ∉ sch.Endpoints)) ∧
    Handlers.CheckExpiredEndpoints singleState ⟨101⟩ deleteFails =
      some (Handlers.removeEndpointsFromSchedules { singleState with endpoints := [] }
        [expiresAt100.ID]) :=
  ⟨(C15_sweep_ignores_delete_result sweepState ⟨100⟩).2.1 deleteFails
      { sweepState with endpoints := [expiredB, keptC],
                        schedules := [⟨1, "every 5s", 5, ⟨0⟩, [2, 3]⟩] } (by decide),
   (C15_sweep_ignores_delete_result singleState ⟨101⟩).2.2 expiresAt100 deleteFails rfl
      (by decide) (by decide)⟩

/-- C17 (failing input). After two schedules are created and the first is deleted, the
list holds one schedule, with ID 2. The next `CreateSchedule` succeeds and returns a
schedule "c" with ID 2 again; `GetSchedule(2)` then returns the older schedule "b".
`DeleteSchedule(2)` returns nil and removes "b", after which `GetSchedule(2)` returns
"c" instead of `ErrScheduleNotFound`. -/
theorem C17_lookup_after_id_reuse :
    (Handlers.run (Handlers.initState []) reuseOpsStart).schedules
      = [⟨2, "b", 60, ⟨2⟩, []⟩] ∧
    (Handlers.CreateSchedule (Handlers.run (Handlers.initState []) reuseOpsStart)
      "c" 300 [] ⟨3⟩).2 = Handlers.Outcome.ok ⟨2, "c", 300, ⟨3⟩, []⟩ ∧
    Handlers.GetSchedule (Handlers.CreateSchedule
      (Handlers.run (Handlers.initState []) reuseOpsStart) "c" 300 [] ⟨3⟩).1 2
        = Handlers.Outcome.ok ⟨2, "b", 60, ⟨2⟩, []⟩ ∧
    (Handlers.DeleteSchedule (Handlers.CreateSchedule
      (Handlers.run (Handlers.initState []) reuseOpsStart) "c" 300 [] ⟨3⟩).1 2).2 = none ∧
    Handlers.GetSchedule (Handlers.DeleteSchedule (Handlers.CreateSchedule
      (Handlers.run (Handlers.initState []) reuseOpsStart) "c" 300 [] ⟨3⟩).1 2).1 2
        = Handlers.Outcome.ok ⟨2, "c", 300, ⟨3⟩, []⟩ := by
  refine ⟨by decide, by decide, by decide, by decide, by decide⟩

/-- C19 (failing input). Create "a", create "b", delete schedule 1, create "c": the new
schedule takes `len(schedules) + 1 = 2`, the ID of the schedule "b" that still exists.
The two schedules in the list have the ID 2, and the entry of `runningSchedules` for 2
now points to the ticker of "c", while the ticker of "b" was not stopped. -/
theorem C19_id_reused_after_delete :
    (Handlers.run (Handlers.initState []) reuseOps).schedules
      = [⟨2, "b", 60, ⟨2⟩, []⟩, ⟨2, "c", 300, ⟨3⟩, []⟩] ∧
    ¬ ((Handlers.run (Handlers.initState []) reuseOps).schedules.map (fun sch => sch.ID)).Nodup ∧
    (Handlers.run (Handlers.initState []) reuseOps).runningSchedules = [(2, 2)] ∧
    (Handlers.run (Handlers.initState []) reuseOps).tickers =
      [⟨5000000000, ⟨1, "a", 5, ⟨1⟩, []⟩, true⟩,
       ⟨60000000000, ⟨2, "b", 60, ⟨2⟩, []⟩, false⟩,
       ⟨300000000000, ⟨2, "c", 300, ⟨3⟩, []⟩, false⟩] := by
  refine ⟨by decide, by decide, by decide, by decide⟩

/-- C20 (failing input). With the registry `expiredA, expiredB` swept at instant 100, the
removal of `expiredA` shortens the slice to length 1; the `range` still visits index 1,
finds `expiredB` there in the shared array and evaluates `endpoints[2:]` on a slice of
length 1: the call panics. The same happens with `expiredA, keptC, expiredB`, where the
last endpoint and one more are expired. -/
theorem C20_sweep_panics :
    Handlers.CheckExpiredEndpoints twoExpiredState ⟨100⟩ deleteOk = none ∧
    Handlers.CheckExpiredEndpoints lastExpiredState ⟨100⟩ deleteOk = none ∧
    Handlers.sweepLoop ⟨100⟩ deleteOk 1 1 ⟨[expiredB, expiredB], 1, [1], [(1, true)]⟩ = none := by
  refine ⟨by decide, by decide, by decide⟩

/-- C21. For every registry and time now on which `CheckExpiredEndpoints` completes, the
resulting registry is a subsequence of the original one (entries unmodified, in their
relative order); it holds the endpoints not expired at now (zero ExpiresAt, or ExpiresAt
not before now) exactly as the original does, each as often as before and in the same
order; every endpoint that occurs less often than before was expired at now. The call
does complete, and changes nothing, when no endpoint of the registry is expired. -/
theorem C21_sweep_frame (s : Handlers.State) (now : Time) (dbDelete : Int → Bool) :
    (∀ r, Handlers.CheckExpiredEndpoints s now dbDelete = some r →
      r.endpoints.Sublist s.endpoints ∧
      r.endpoints.filter (fun e => !Handlers.isExpired now e)
        = s.endpoints.filter (fun e => !Handlers.isExpired now e) ∧
      (∀ e, Handlers.isExpired now e = false →
        r.endpoints.count e = s.endpoints.count e ∧ (e ∈ s.endpoints → e ∈ r.endpoints)) ∧
      (∀ e, r.endpoints.count e < s.endpoints.count e → Handlers.isExpired now e = true)) ∧
    (∀ e : Endpoint, Handlers.isExpired now e = false ↔
      e.ExpiresAt.ns = 0 ∨ ¬ e.ExpiresAt.ns < now.ns) ∧
    ((∀ e, e ∈ s.endpoints → Handlers.isExpired now e = false) →
      Handlers.CheckExpiredEndpoints s now dbDelete = some s) := by
  refine ⟨?_, ?_, ?_⟩
  · intro r hr
    obtain ⟨st, hloop, hstate⟩ := Handlers.CheckExpiredEndpoints_some s r now dbDelete hr
    obtain ⟨-, hsub, -, -⟩ := Handlers.sweepLoop_spec now dbDelete _ _ _ st (by simp) hloop
    have hfilter := Handlers.sweepLoop_filter now dbDelete _ _ _ st (by simp) hloop
    have hlive0 : Handlers.Sweep.live ⟨s.endpoints, s.endpoints.length, [], []⟩ = s.endpoints := by
      simp [Handlers.Sweep.live]
    rw [hlive0] at hsub hfilter
    have hreg : r.endpoints = st.live := by rw [hstate]
    rw [hreg]
    have hcount : ∀ e, Handlers.isExpired now e = false →
        st.live.count e = s.endpoints.count e := by
      intro e he
      have hp : (fun x => !Handlers.isExpired now x) e = true := by simp [he]
      have h1 : (st.live.filter (fun x => !Handlers.isExpired now x)).count e
          = st.live.count e := List.count_filter hp
      have h2 : (s.endpoints.filter (fun x => !Handlers.isExpired now x)).count e
          = s.endpoints.count e := List.count_filter hp
      rw [← h1, ← h2, hfilter]
    refine ⟨hsub, hfilter, ?_, ?_⟩
    · intro e he
      refine ⟨hcount e he, ?_⟩
      intro hmem
      have hpos : 0 < s.endpoints.count e := List.count_pos_iff.2 hmem
      rw [← hcount e he] at hpos
      exact List.count_pos_iff.1 hpos
    · intro e hlt
      by_contra hne
      have he : Handlers.isExpired now e = false := by simpa using hne
      rw [hcount e he] at hlt
      exact absurd hlt (by omega)
  · intro e
    simp only [Handlers.isExpired, Time.IsZero, Time.Before]
    by_cases h0 : e.ExpiresAt.ns = 0
    · simp [h0]
    · by_cases h1 : e.ExpiresAt.ns < now.ns
      · simp [h0, h1]
      · simp [h0, h1]
  · intro hall
    have hloop := Handlers.sweepLoop_none_expired now dbDelete s.endpoints.length 0
      ⟨s.endpoints, s.endpoints.length, [], []⟩ hall
    simp [Handlers.CheckExpiredEndpoints, hloop]

/-- C21 (witness). The statement at `sweepState` swept at instant 100, where the call
completes with the registry `expiredB, keptC`, and at `demoState`, where nothing is
expired. -/
theorem C21_sweep_frame_witness :
    ([expiredB, keptC].Sublist sweepState.endpoints ∧
      [expiredB, keptC].filter (fun e => !Handlers.isExpired ⟨100⟩ e)
        = sweepState.endpoints.filter (fun e => !Handlers.isExpired ⟨100⟩ e)) ∧
    Handlers.CheckExpiredEndpoints demoState ⟨100⟩ deleteOk = some demoState :=
  ⟨⟨((C21_sweep_frame sweepState ⟨100⟩ deleteOk).1
        { sweepState with endpoints := [expiredB, keptC],
                          schedules := [⟨1, "every 5s", 5, ⟨0⟩, [2, 3]⟩] } (by decide)).1,
    ((C21_sweep_frame sweepState ⟨100⟩ deleteOk).1
        { sweepState with endpoints := [expiredB, keptC],
                          schedules := [⟨1, "every 5s", 5, ⟨0⟩, [2, 3]⟩] } (by decide)).2.1⟩,
   (C21_sweep_frame demoState ⟨100⟩ deleteOk).2.2 (by decide)⟩
end ApiAlert
